import Mathlib

/-!
Shallow embedding of the AWS Lambda deployment script in
src/codepipelinetos3.py, together with theorems checking the
natural-language specification of the repository against the code.

The script is a linear effectful procedure. We embed it as a function
from an explicit environment (outcomes of the external I/O calls:
download success, zip validity, zip entry names, per-upload outcomes)
and the trigger event to a trace of externally visible actions paired
with a final outcome (normal return or a propagated Python exception).

Library calls made by the script (json.loads, zipfile extractall,
mimetypes.guess_type, os.path.splitext, the Python membership and
subscript operators) are modelled faithfully below, at the level of
detail the script exercises.
-/

namespace CodePipelineToS3

/-- Model of a decoded JSON value, the result of json.loads. Numbers keep
their raw lexical form, since the script never computes with them. Objects
keep their fields as an association list in which a repeated key replaces
the earlier binding, matching Python dict construction. -/
inductive JVal where
| null : JVal
| bool (b : Bool) : JVal
| num (raw : String) : JVal
| str (s : String) : JVal
| arr (items : List JVal) : JVal
| obj (fields : List (String × JVal)) : JVal

mutual

/-- Structural equality test on JSON values, modelling the Python
equality used by the membership operator. -/
def jvalBeq : JVal → JVal → Bool
| JVal.null, JVal.null => true
| JVal.bool a, JVal.bool b => a == b
| JVal.num a, JVal.num b => a == b
| JVal.str a, JVal.str b => a == b
| JVal.arr xs, JVal.arr ys => jlistBeq xs ys
| JVal.obj xs, JVal.obj ys => jfieldsBeq xs ys
| _, _ => false

/-- Pointwise equality test on JSON arrays. -/
def jlistBeq : List JVal → List JVal → Bool
| [], [] => true
| x :: xs, y :: ys => jvalBeq x y && jlistBeq xs ys
| _, _ => false

/-- Pointwise equality test on JSON object fields. -/
def jfieldsBeq : List (String × JVal) → List (String × JVal) → Bool
| [], [] => true
| (k1, v1) :: xs, (k2, v2) :: ys => k1 == k2 && jvalBeq v1 v2 && jfieldsBeq xs ys
| _, _ => false

end

/-- Model of a propagated Python exception, by class and message. -/
inductive PyErr where
| exn (message : String) : PyErr
| typeError (message : String) : PyErr
| keyError (message : String) : PyErr
| indexError (message : String) : PyErr
| clientError (message : String) : PyErr
| badZipFile (message : String) : PyErr
| isADirectoryError (message : String) : PyErr
| notADirectoryError (message : String) : PyErr
| fileExistsError (message : String) : PyErr
deriving DecidableEq

/-- Whitespace skipping of the JSON decoder. -/
def skipWs : List Char → List Char
| c :: cs => if c = ' ' ∨ c = '\t' ∨ c = '\n' ∨ c = '\r' then skipWs cs else c :: cs
| [] => []

/-- Value of a hexadecimal digit. -/
def hexVal (c : Char) : Option Nat :=
  if c.isDigit then some (c.toNat - 48)
  else if 'a' ≤ c ∧ c ≤ 'f' then some (c.toNat - 87)
  else if 'A' ≤ c ∧ c ≤ 'F' then some (c.toNat - 55)
  else none

/-- Body of a JSON string literal, after the opening quote; the
accumulator holds the decoded characters in reverse. -/
def parseStringBody : List Char → List Char → Option (String × List Char)
| '\"' :: rest, acc => some (String.mk acc.reverse, rest)
| '\\' :: '\"' :: rest, acc => parseStringBody rest ('\"' :: acc)
| '\\' :: '\\' :: rest, acc => parseStringBody rest ('\\' :: acc)
| '\\' :: '/' :: rest, acc => parseStringBody rest ('/' :: acc)
| '\\' :: 'n' :: rest, acc => parseStringBody rest ('\n' :: acc)
| '\\' :: 't' :: rest, acc => parseStringBody rest ('\t' :: acc)
| '\\' :: 'r' :: rest, acc => parseStringBody rest ('\r' :: acc)
| '\\' :: 'b' :: rest, acc => parseStringBody rest ('\x08' :: acc)
| '\\' :: 'f' :: rest, acc => parseStringBody rest ('\x0c' :: acc)
| '\\' :: 'u' :: h1 :: h2 :: h3 :: h4 :: rest, acc =>
  match hexVal h1, hexVal h2, hexVal h3, hexVal h4 with
  | some a, some b, some c, some d =>
    parseStringBody rest (Char.ofNat (4096 * a + 256 * b + 16 * c + d) :: acc)
  | _, _, _, _ => none
| '\\' :: _, _ => none
| c :: rest, acc => if c.toNat < 32 then none else parseStringBody rest (c :: acc)
| [], _ => none

/-- Longest digit run at the head of the input. -/
def takeDigits : List Char → List Char × List Char
| c :: cs =>
  if c.isDigit then
    let (ds, r) := takeDigits cs
    (c :: ds, r)
  else ([], c :: cs)
| [] => ([], [])

/-- Integer part of a JSON number: a single zero, or a nonzero digit
followed by digits. -/
def parseIntPart : List Char → Option (List Char × List Char)
| '0' :: cs => some (['0'], cs)
| c :: cs =>
  if c.isDigit then
    let (ds, r) := takeDigits cs
    some (c :: ds, r)
  else none
| [] => none

/-- Optional fractional part of a JSON number. -/
def parseFracPart : List Char → Option (List Char × List Char)
| '.' :: cs =>
  match takeDigits cs with
  | ([], _) => none
  | (ds, r) => some ('.' :: ds, r)
| cs => some ([], cs)

/-- Optional exponent part of a JSON number. -/
def parseExpPart : List Char → Option (List Char × List Char)
| 'e' :: cs =>
  match cs with
  | '+' :: cs2 =>
    match takeDigits cs2 with
    | ([], _) => none
    | (ds, r) => some ('e' :: '+' :: ds, r)
  | '-' :: cs2 =>
    match takeDigits cs2 with
    | ([], _) => none
    | (ds, r) => some ('e' :: '-' :: ds, r)
  | _ =>
    match takeDigits cs with
    | ([], _) => none
    | (ds, r) => some ('e' :: ds, r)
| 'E' :: cs =>
  match cs with
  | '+' :: cs2 =>
    match takeDigits cs2 with
    | ([], _) => none
    | (ds, r) => some ('E' :: '+' :: ds, r)
  | '-' :: cs2 =>
    match takeDigits cs2 with
    | ([], _) => none
    | (ds, r) => some ('E' :: '-' :: ds, r)
  | _ =>
    match takeDigits cs with
    | ([], _) => none
    | (ds, r) => some ('E' :: ds, r)
| cs => some ([], cs)

/-- Lexical form of a JSON number, kept as a string. -/
def parseNumber (cs : List Char) : Option (String × List Char) :=
  let (neg, cs1) := match cs with
    | '-' :: r => (['-'], r)
    | _ => (([] : List Char), cs)
  match parseIntPart cs1 with
  | none => none
  | some (ip, cs2) =>
    match parseFracPart cs2 with
    | none => none
    | some (fp, cs3) =>
      match parseExpPart cs3 with
      | none => none
      | some (ep, cs4) => some (String.mk (neg ++ ip ++ fp ++ ep), cs4)

/-- Binding insertion with Python dict semantics: a repeated key replaces
the earlier binding in place, new keys append at the end. -/
def insertKV (fields : List (String × JVal)) (k : String) (v : JVal) :
    List (String × JVal) :=
  if (fields.lookup k).isSome then
    fields.map (fun kv => if kv.1 == k then (k, v) else kv)
  else fields ++ [(k, v)]

mutual

/-- Recursive descent over a JSON document, with fuel. Every recursive
call consumes at least one input character, so fuel larger than the
input length cannot run out. -/
def parseVal : Nat → List Char → Option (JVal × List Char)
| 0, _ => none
| n + 1, cs =>
  match skipWs cs with
  | 'n' :: 'u' :: 'l' :: 'l' :: rest => some (JVal.null, rest)
  | 't' :: 'r' :: 'u' :: 'e' :: rest => some (JVal.bool true, rest)
  | 'f' :: 'a' :: 'l' :: 's' :: 'e' :: rest => some (JVal.bool false, rest)
  | 'N' :: 'a' :: 'N' :: rest => some (JVal.num "NaN", rest)
  | 'I' :: 'n' :: 'f' :: 'i' :: 'n' :: 'i' :: 't' :: 'y' :: rest =>
    some (JVal.num "Infinity", rest)
  | '-' :: 'I' :: 'n' :: 'f' :: 'i' :: 'n' :: 'i' :: 't' :: 'y' :: rest =>
    some (JVal.num "-Infinity", rest)
  | '\"' :: rest =>
    match parseStringBody rest [] with
    | some (s, r) => some (JVal.str s, r)
    | none => none
  | '\x7b' :: rest => parseObjBody n rest
  | '[' :: rest => parseArrBody n rest
  | c :: rest =>
    if c = '-' ∨ c.isDigit then
      match parseNumber (c :: rest) with
      | some (s, r) => some (JVal.num s, r)
      | none => none
    else none
  | [] => none

/-- Array body, after the opening bracket. -/
def parseArrBody : Nat → List Char → Option (JVal × List Char)
| 0, _ => none
| n + 1, cs =>
  match skipWs cs with
  | ']' :: rest => some (JVal.arr [], rest)
  | cs1 =>
    match parseVal n cs1 with
    | none => none
    | some (v, r) => parseArrRest n [v] r

/-- Remaining array items, after at least one item. -/
def parseArrRest : Nat → List JVal → List Char → Option (JVal × List Char)
| 0, _, _ => none
| n + 1, acc, cs =>
  match skipWs cs with
  | ',' :: rest =>
    match parseVal n rest with
    | none => none
    | some (v, r) => parseArrRest n (acc ++ [v]) r
  | ']' :: rest => some (JVal.arr acc, rest)
  | _ => none

/-- Object body, after the opening brace. -/
def parseObjBody : Nat → List Char → Option (JVal × List Char)
| 0, _ => none
| n + 1, cs =>
  match skipWs cs with
  | '\x7d' :: rest => some (JVal.obj [], rest)
  | '\"' :: rest =>
    match parseStringBody rest [] with
    | none => none
    | some (k, r) =>
      match skipWs r with
      | ':' :: r2 =>
        match parseVal n r2 with
        | none => none
        | some (v, r3) => parseObjRest n (insertKV [] k v) r3
      | _ => none
  | _ => none

/-- Remaining object fields, after at least one field. -/
def parseObjRest : Nat → List (String × JVal) → List Char →
    Option (JVal × List Char)
| 0, _, _ => none
| n + 1, acc, cs =>
  match skipWs cs with
  | ',' :: rest =>
    match skipWs rest with
    | '\"' :: r =>
      match parseStringBody r [] with
      | none => none
      | some (k, r2) =>
        match skipWs r2 with
        | ':' :: r3 =>
          match parseVal n r3 with
          | none => none
          | some (v, r4) => parseObjRest n (insertKV acc k v) r4
        | _ => none
    | _ => none
  | '\x7d' :: rest => some (JVal.obj acc, rest)
  | _ => none

end

/-- Model of json.loads: decode the whole string as one JSON document,
returning none exactly when the string is not decodable. -/
def json_loads (s : String) : Option JVal :=
  match parseVal (s.length + 2) s.toList with
  | some (v, rest) => if skipWs rest = [] then some v else none
  | none => none

/-- Check whether the first list is an initial run of the second. -/
def charsBeginWith : List Char → List Char → Bool
| [], _ => true
| _ :: _, [] => false
| n :: ns, h :: hs => n == h && charsBeginWith ns hs

/-- Check whether needle occurs as a contiguous run inside hay. -/
def charsContain (needle : List Char) : List Char → Bool
| [] => charsBeginWith needle []
| c :: hs => charsBeginWith needle (c :: hs) || charsContain needle hs

/-- Model of the Python substring test needle in hay. -/
def strContains (hay needle : String) : Bool :=
  charsContain needle.toList hay.toList

/-- Python type name of a decoded JSON value, used in error messages. -/
def pyTypeName : JVal → String
| JVal.null => "NoneType"
| JVal.bool _ => "bool"
| JVal.num raw =>
  if raw.toList.any (fun c => c = '.' ∨ c = 'e' ∨ c = 'E' ∨ c = 'n' ∨ c = 'i')
  then "float" else "int"
| JVal.str _ => "str"
| JVal.arr _ => "list"
| JVal.obj _ => "dict"

/-- Model of the Python membership operator key in value, as applied to a
decoded JSON value: key lookup on dicts, element equality on lists,
substring test on strings, and a TypeError on the remaining types. -/
def pyContains (v : JVal) (key : String) : Except PyErr Bool :=
  match v with
  | JVal.obj fields => Except.ok ((fields.lookup key).isSome)
  | JVal.arr items => Except.ok (items.any (fun x => jvalBeq x (JVal.str key)))
  | JVal.str s => Except.ok (strContains s key)
  | other =>
    Except.error (PyErr.typeError
      ("argument of type \x27" ++ pyTypeName other ++ "\x27 is not iterable"))

/-- Model of the Python subscript operator value[key] with a string key,
as applied to a decoded JSON value. -/
def pySubscript (v : JVal) (key : String) : Except PyErr JVal :=
  match v with
  | JVal.obj fields =>
    match fields.lookup key with
    | some x => Except.ok x
    | none => Except.error (PyErr.keyError key)
  | JVal.str _ => Except.error (PyErr.typeError "string indices must be integers")
  | JVal.arr _ =>
    Except.error (PyErr.typeError "list indices must be integers or slices, not str")
  | other =>
    Except.error (PyErr.typeError
      ("\x27" ++ pyTypeName other ++ "\x27 object is not subscriptable"))

/-- Index of the last occurrence of a character, accumulator form. -/
def lastIdxAux (c : Char) : List Char → Nat → Option Nat → Option Nat
| [], _, acc => acc
| x :: xs, i, acc => lastIdxAux c xs (i + 1) (if x = c then some i else acc)

/-- Index of the last occurrence of a character in a character list. -/
def lastIdx (c : Char) (cs : List Char) : Option Nat := lastIdxAux c cs 0 none

/-- Model of posixpath.splitext: split a path into root and extension,
where the extension begins at the last dot of the final component,
provided that component has a character other than a dot before it. -/
def posixSplitext (p : String) : String × String :=
  let cs := p.toList
  let fnameIdx : Nat :=
    match lastIdx '/' cs with
    | some s => s + 1
    | none => 0
  match lastIdx '.' cs with
  | none => (p, "")
  | some dot =>
    if Nat.ble fnameIdx dot &&
        ((cs.drop fnameIdx).take (dot - fnameIdx)).any (fun ch => ch != '.') then
      (String.mk (cs.take dot), String.mk (cs.drop dot))
    else (p, "")

/-- Segment split of a character list at a separator character, keeping
empty segments, as the Python split does. -/
def splitSegs (sep : Char) : List Char → List Char → List String
| [], acc => [String.mk acc.reverse]
| c :: cs, acc =>
  if c = sep then String.mk acc.reverse :: splitSegs sep cs []
  else splitSegs sep cs (c :: acc)

/-- Split of a string at every separator slash. -/
def splitOnSlash (name : String) : List String :=
  splitSegs '/' name.toList []

/-- Lowercase mapping of an ASCII character. -/
def asciiLowerChar (c : Char) : Char :=
  if 'A' ≤ c ∧ c ≤ 'Z' then Char.ofNat (c.toNat + 32) else c

/-- Lowercase mapping of a string, character by character. -/
def asciiLower (s : String) : String :=
  String.mk (s.toList.map asciiLowerChar)

/-- Model of the standard mimetypes extension table, restricted to a
representative set of entries; keys are lowercase extensions. With the
strict flag off the table merges the standard and the common entries. -/
def types_map : List (String × String) :=
  [(".html", "text/html"), (".htm", "text/html"), (".css", "text/css"),
   (".js", "application/javascript"), (".json", "application/json"),
   (".png", "image/png"), (".jpg", "image/jpeg"), (".jpeg", "image/jpeg"),
   (".gif", "image/gif"), (".svg", "image/svg+xml"), (".txt", "text/plain"),
   (".pdf", "application/pdf"), (".xml", "text/xml"),
   (".ico", "image/vnd.microsoft.icon"), (".zip", "application/zip"),
   (".tar", "application/x-tar"), (".md", "text/markdown")]

/-- Model of the mimetypes suffix table, rewriting shorthand compound
extensions. -/
def suffix_map : List (String × String) :=
  [(".svgz", ".svg.gz"), (".tgz", ".tar.gz"), (".taz", ".tar.gz"),
   (".tz", ".tar.gz"), (".tbz2", ".tar.bz2"), (".txz", ".tar.xz")]

/-- Model of the mimetypes encodings table. -/
def encodings_map : List (String × String) :=
  [(".gz", "gzip"), (".Z", "compress"), (".bz2", "bzip2"), (".xz", "xz"),
   (".br", "br")]

/-- Suffix rewriting loop of mimetypes.guess_type, with fuel; in the
table above at most two rounds ever apply. -/
def expandSuffix : Nat → String × String → String × String
| 0, be => be
| n + 1, (base, ext) =>
  match suffix_map.lookup ext with
  | some repl => expandSuffix n (posixSplitext (base ++ repl))
  | none => (base, ext)

/-- Model of mimetypes.guess_type with the strict flag off, returning
only the type component: split off the extension, rewrite shorthand
compound extensions, strip one encoding extension, then look the result
up in the extension table, first as is and then lowercased. -/
def guess_type (url : String) : Option String :=
  let be := expandSuffix 4 (posixSplitext url)
  let ext :=
    if (encodings_map.lookup be.2).isSome then (posixSplitext be.1).2 else be.2
  match types_map.lookup ext with
  | some t => some t
  | none => types_map.lookup (asciiLower ext)

/-- Components of a zip entry name kept by the extraction sanitizer of
zipfile: split on the separator and drop empty, dot and dot-dot parts. -/
def sanitizeParts (name : String) : List String :=
  (splitOnSlash name).filter (fun part => part != "" && part != "." && part != "..")

/-- Relative path at which zipfile extraction materializes an entry:
the surviving components joined by the separator. -/
def sanitizeName (name : String) : String :=
  String.intercalate "/" (sanitizeParts name)

/-- Directory-marker test of zipfile: an entry is a directory exactly
when its name ends with the separator. -/
def isDirEntry (name : String) : Bool := name.toList.getLast? == some '/'

/-- State of the file system below the extraction root while
ZipFile.extractall runs: the directories and the regular files created
so far, each as a list of path components relative to the root (the
root itself is the empty component list and is always a directory).
Files are kept in creation order, each path once. -/
structure FsState where
  dirs : List (List String)
  files : List (List String)

/-- Nonempty proper prefixes of a component path: the ancestor
directories that must exist before the path itself can be created. -/
def properAncestors (p : List String) : List (List String) :=
  (List.range (p.length - 1)).map (fun i => p.take (i + 1))

/-- Model of the os.makedirs call of the extractor, invoked only when
the parent path does not exist yet: walking down from the root, a
missing directory level is created, and a level that exists as a
regular file makes the creation of the next level raise
NotADirectoryError. -/
def makedirsM (st : FsState) (upper : List String) : Except PyErr FsState :=
  if (properAncestors upper).any (fun q => st.files.contains q) then
    Except.error (PyErr.notADirectoryError "Not a directory")
  else
    Except.ok ⟨st.dirs ++ (properAncestors upper ++ [upper]).filter
      (fun q => !(st.dirs.contains q)), st.files⟩

/-- Parent-directory step of the extractor: when the parent path of the
member already exists (as a directory or even as a regular file, since
the extractor only tests existence) nothing happens, otherwise the
missing directories are created. -/
def ensureUpper (st : FsState) (upper : List String) : Except PyErr FsState :=
  if upper = [] ∨ st.dirs.contains upper ∨ st.files.contains upper then
    Except.ok st
  else makedirsM st upper

/-- Model of ZipFile extraction of a single member: sanitize the entry
name, ensure the parent directories exist, then either create the
directory (for a marker entry: already-a-directory is fine, an existing
file raises FileExistsError, a file parent raises NotADirectoryError)
or open the file for writing (an existing directory, including the root
for an empty sanitized name, raises IsADirectoryError, a file parent
raises NotADirectoryError, an existing file is overwritten). -/
def extractMember (st : FsState) (name : String) : Except PyErr FsState :=
  let parts := sanitizeParts name
  let upper := parts.dropLast
  Except.bind (ensureUpper st upper) (fun st2 =>
    if isDirEntry name then
      if parts = [] ∨ st2.dirs.contains parts then Except.ok st2
      else if st2.files.contains parts then
        Except.error (PyErr.fileExistsError "File exists")
      else if upper ≠ [] ∧ st2.files.contains upper then
        Except.error (PyErr.notADirectoryError "Not a directory")
      else Except.ok ⟨st2.dirs ++ [parts], st2.files⟩
    else
      if parts = [] ∨ st2.dirs.contains parts then
        Except.error (PyErr.isADirectoryError "Is a directory")
      else if upper ≠ [] ∧ st2.files.contains upper then
        Except.error (PyErr.notADirectoryError "Not a directory")
      else if st2.files.contains parts then Except.ok st2
      else Except.ok ⟨st2.dirs, st2.files ++ [parts]⟩)

/-- Extraction of a list of members in order, threading the file system
state; the first raising member aborts the run, as extractall does. -/
def extractAllState : List String → FsState → Except PyErr FsState
| [], st => Except.ok st
| e :: rest, st => Except.bind (extractMember st e) (extractAllState rest)

/-- Model of ZipFile.extractall over the list of entry names, starting
from an empty extraction root: on success the result lists the relative
paths of the written regular files, each once, as the later directory
walk observes the file system. -/
def extractallFiles (entries : List String) : Except PyErr (List String) :=
  Except.bind (extractAllState entries ⟨[], []⟩)
    (fun st => Except.ok (st.files.map (String.intercalate "/")))

/-- Temporary credentials supplied inside the trigger event under
artifactCredentials. -/
structure Creds where
  accessKeyId : String
  secretAccessKey : String
  sessionToken : String
deriving DecidableEq

/-- Identity with which an S3 client authenticates: either the ambient
default identity of the invocation, or an explicit credential triple. -/
inductive Identity where
| ambient : Identity
| scoped (creds : Creds) : Identity
deriving DecidableEq

/-- Model of a boto3 S3 client: the identity it signs with and the
signature configuration it was built with. -/
structure S3Client where
  identity : Identity
  signatureVersion : String
deriving DecidableEq

/-- Location of the input artifact inside the trigger event. -/
structure S3Location where
  bucketName : String
  objectKey : String
deriving DecidableEq

/-- One element of the inputArtifacts list of the trigger event. -/
structure InputArtifact where
  location : S3Location
deriving DecidableEq

/-- Job data of the trigger event: the credential triple, the input
artifact list, and the UserParameters string reached through
actionConfiguration and configuration. -/
structure JobData where
  artifactCredentials : Creds
  inputArtifacts : List InputArtifact
  userParameters : String
deriving DecidableEq

/-- Trigger event delivered by CodePipeline. -/
structure Event where
  jobId : String
  data : JobData
deriving DecidableEq

/-- Source of codepipelinetos3.py, setup_s3_client: build a session from
the three credential fields of the event and return an S3 client over it
configured with signature version s3v4. -/
def setup_s3_client (job_data : JobData) : S3Client :=
  S3Client.mk (Identity.scoped job_data.artifactCredentials) "s3v4"

/-- Client built by the bare boto3.client call in upload_to_s3: the
ambient default identity with the default signature configuration. -/
def defaultS3Client : S3Client :=
  S3Client.mk Identity.ambient "default"

/-- Source of codepipelinetos3.py, get_static_bucket: decode the
UserParameters string as JSON, failing the decode with a fixed message;
then test membership of the staticS3 key with the Python membership
operator, failing with a fixed message when absent; finally subscript.
The returned value is whatever JSON value sits under the key. -/
def get_static_bucket (jobdata : JobData) : Except PyErr JVal :=
  match json_loads jobdata.userParameters with
  | none => Except.error (PyErr.exn "UserParameters could not be decoded as JSON")
  | some decoded_parameters =>
    match pyContains decoded_parameters "staticS3" with
    | Except.error e => Except.error e
    | Except.ok false =>
      Except.error (PyErr.exn "Your UserParameters JSON must include the static S3 bucket")
    | Except.ok true => pySubscript decoded_parameters "staticS3"

/-- Externally visible action performed by one invocation. The
deleteObject constructor exists so that the absence of any rollback of
completed uploads is expressible; no code path emits it. -/
inductive Action where
| downloadFile (client : S3Client) (bucket objectKey destPath : String) : Action
| createTempDir (path : String) : Action
| createTempFile (path : String) : Action
| removeTempFile (path : String) : Action
| removeTempDir (path : String) : Action
| uploadFile (client : S3Client) (srcPath : String) (bucket : JVal)
    (objectKey : String) (contentType : String) : Action
| deleteObject (client : S3Client) (bucket : JVal) (objectKey : String) : Action
| putJobSuccess (jobId : String) : Action
| putJobFailure (jobId : String) (message : String) : Action

/-- Path returned by the tempfile.mkdtemp call. -/
def tmpDirPath : String := "/tmp/tmpdirxxxxxx"

/-- Path of the tempfile.NamedTemporaryFile holding the archive. -/
def tmpFilePath : String := "/tmp/tmpfilexxxxxx"

/-- Content type attached to an upload in upload_to_s3: the guessed
mime type of the temporary location, or the literal binary/octet-stream
fallback when the guess returns none. -/
def mimeOrDefault (tmplocation : String) : String :=
  match guess_type tmplocation with
  | some m => m
  | none => "binary/octet-stream"

/-- Source of codepipelinetos3.py, the loop of upload_to_s3: walkFiles
is the list of relative file paths that the os.walk comprehension
produces over the extracted directory, and uploadOk gives the outcome
of each upload_file call in walk order. For each file the mime type is
guessed from its temporary location, with the literal fallback
binary/octet-stream, and an upload is issued against the destination
bucket with the relative path as key. A failing call raises and stops
the loop. -/
def upload_to_s3 (sourcedir : String) (s3bucket : JVal) (walkFiles : List String)
    (uploadOk : Nat → Bool) : List Action × Except PyErr Unit :=
  match walkFiles with
  | [] => ([], Except.ok ())
  | uploadfile :: rest =>
    let tmplocation := sourcedir ++ "/" ++ uploadfile
    let mime := mimeOrDefault tmplocation
    let act := Action.uploadFile defaultS3Client tmplocation s3bucket uploadfile mime
    if uploadOk 0 then
      let r := upload_to_s3 sourcedir s3bucket rest (fun i => uploadOk (i + 1))
      (act :: r.1, r.2)
    else ([act], Except.error (PyErr.clientError "upload failed"))

/-- Outcomes of the external world during one invocation: whether the
artifact download succeeds, whether the downloaded blob is a valid zip,
the entry names of the archive, and the outcome of each upload in walk
order. -/
structure Env where
  downloadOk : Bool
  zipValid : Bool
  zipEntries : List String
  uploadOk : Nat → Bool

/-- Source of codepipelinetos3.py, lambda_handler: read the job id, the
first input artifact and its location, resolve the static bucket, make
a temporary directory, build the scoped client, download the artifact
to a named temporary file, extract it, upload the extracted tree, and
report success. Any raised exception propagates; the named temporary
file is removed when its with block exits, and nothing ever removes the
temporary directory or reports failure. -/
def lambda_handler (env : Env) (event : Event) : List Action × Except PyErr Unit :=
  let jobid := event.jobId
  let jobdata := event.data
  match jobdata.inputArtifacts with
  | [] => ([], Except.error (PyErr.indexError "list index out of range"))
  | inputartifact :: _ =>
    let bucketname := inputartifact.location.bucketName
    let objectkey := inputartifact.location.objectKey
    match get_static_bucket jobdata with
    | Except.error e => ([], Except.error e)
    | Except.ok statics3 =>
      let sourcedir := tmpDirPath
      let s3 := setup_s3_client jobdata
      let pre := [Action.createTempDir sourcedir, Action.createTempFile tmpFilePath,
                  Action.downloadFile s3 bucketname objectkey tmpFilePath]
      if env.downloadOk then
        if env.zipValid then
          match extractallFiles env.zipEntries with
          | Except.error e =>
            (pre ++ [Action.removeTempFile tmpFilePath], Except.error e)
          | Except.ok files =>
            let afterzip := pre ++ [Action.removeTempFile tmpFilePath]
            let up := upload_to_s3 sourcedir statics3 files env.uploadOk
            match up.2 with
            | Except.error e => (afterzip ++ up.1, Except.error e)
            | Except.ok _ =>
              (afterzip ++ up.1 ++ [Action.putJobSuccess jobid], Except.ok ())
        else
          (pre ++ [Action.removeTempFile tmpFilePath],
           Except.error (PyErr.badZipFile "File is not a zip file"))
      else
        (pre ++ [Action.removeTempFile tmpFilePath],
         Except.error (PyErr.clientError "download failed"))

/-- Upload action built for one walked file; abbreviation used by the
trace characterizations below. -/
def mkUpload (sourcedir : String) (s3bucket : JVal) (uploadfile : String) : Action :=
  Action.uploadFile defaultS3Client (sourcedir ++ "/" ++ uploadfile) s3bucket
    uploadfile (mimeOrDefault (sourcedir ++ "/" ++ uploadfile))

/-- Test for an upload action. -/
def isUploadAct : Action → Bool
| Action.uploadFile _ _ _ _ _ => true
| _ => false

/-- Test for a download action. -/
def isDownloadAct : Action → Bool
| Action.downloadFile _ _ _ _ => true
| _ => false

/-- Test for a success report to the completion sink. -/
def isSuccessAct : Action → Bool
| Action.putJobSuccess _ => true
| _ => false

/-- Test for a failure report to the completion sink. -/
def isFailureAct : Action → Bool
| Action.putJobFailure _ _ => true
| _ => false

/-- Test for the creation of the temporary file. -/
def isCreateFileAct : Action → Bool
| Action.createTempFile _ => true
| _ => false

/-- Test for the removal of the temporary file. -/
def isRemoveFileAct : Action → Bool
| Action.removeTempFile _ => true
| _ => false

/-- Test for the creation of the temporary directory. -/
def isCreateDirAct : Action → Bool
| Action.createTempDir _ => true
| _ => false

/-- Test for the removal of the temporary directory. -/
def isRemoveDirAct : Action → Bool
| Action.removeTempDir _ => true
| _ => false

/-- Test for a destination object deletion, the rollback primitive. -/
def isDeleteAct : Action → Bool
| Action.deleteObject _ _ _ => true
| _ => false

/-- Destination keys of the upload actions of a trace, in order. -/
def uploadKeys (tr : List Action) : List String :=
  tr.filterMap (fun a =>
    match a with
    | Action.uploadFile _ _ _ k _ => some k
    | _ => none)

/-- Upload actions of a trace, in order. -/
def uploadActs (tr : List Action) : List Action := tr.filter isUploadAct

/-- Outcome test on the final result of the handler. -/
def exceptOk : Except PyErr Unit → Bool
| Except.ok _ => true
| Except.error _ => false

theorem upload_to_s3_trace_mem (sd : String) (b : JVal) (fs : List String)
    (ok : Nat → Bool) :
    ∀ a ∈ (upload_to_s3 sd b fs ok).1, ∃ f ∈ fs, a = mkUpload sd b f := by
  induction fs generalizing ok with
  | nil =>
    intro a ha
    simp [upload_to_s3] at ha
  | cons f rest ih =>
    intro a ha
    by_cases h0 : ok 0
    · simp only [upload_to_s3, h0, if_true] at ha
      rcases List.mem_cons.mp ha with rfl | ha2
      · exact ⟨f, List.mem_cons_self _ _, rfl⟩
      · obtain ⟨g, hg, rfl⟩ := ih _ a ha2
        exact ⟨g, List.mem_cons_of_mem _ hg, rfl⟩
    · simp only [upload_to_s3, h0, if_false] at ha
      rcases List.mem_singleton.mp ha with rfl
      exact ⟨f, List.mem_cons_self _ _, rfl⟩

theorem upload_to_s3_success (sd : String) (b : JVal) (fs : List String)
    (ok : Nat → Bool) (h : ∀ i, ok i = true) :
    upload_to_s3 sd b fs ok = (fs.map (mkUpload sd b), Except.ok ()) := by
  induction fs generalizing ok with
  | nil => simp [upload_to_s3]
  | cons f rest ih =>
    have h0 : ok 0 = true := h 0
    simp only [upload_to_s3, h0, if_true, List.map_cons]
    rw [ih (fun i => ok (i + 1)) (fun i => h (i + 1))]
    rfl

theorem upload_to_s3_failure (sd : String) (b : JVal) (fs : List String)
    (ok : Nat → Bool) (k : Nat) (hk : k < fs.length)
    (hpre : ∀ i, i < k → ok i = true) (hfail : ok k = false) :
    upload_to_s3 sd b fs ok =
      ((fs.take (k + 1)).map (mkUpload sd b),
       Except.error (PyErr.clientError "upload failed")) := by
  induction fs generalizing ok k with
  | nil => exact absurd hk (by simp)
  | cons f rest ih =>
    cases k with
    | zero =>
      simp [upload_to_s3, hfail, mkUpload]
    | succ k2 =>
      have h0 : ok 0 = true := hpre 0 (Nat.succ_pos _)
      simp only [upload_to_s3, h0, if_true, List.take, List.map_cons]
      rw [ih (fun i => ok (i + 1)) k2 (Nat.lt_of_succ_lt_succ hk)
        (fun i hi => hpre (i + 1) (Nat.succ_lt_succ hi)) hfail]
      rfl

theorem list_map_self {α : Type} (l : List α) (f : α → α) (h : ∀ a ∈ l, f a = a) :
    l.map f = l := by
  induction l with
  | nil => rfl
  | cons x xs ih =>
    simp only [List.map_cons, h x (List.mem_cons_self _ _)]
    rw [ih (fun a ha => h a (List.mem_cons_of_mem _ ha))]

theorem except_bind_ok {ε α β : Type} (a : α) (f : α → Except ε β) :
    Except.bind (Except.ok a) f = f a := rfl

theorem except_bind_error {ε α β : Type} (e : ε) (f : α → Except ε β) :
    Except.bind (Except.error e : Except ε α) f = Except.error e := rfl

theorem sanitizeParts_clean (name : String) :
    ∀ p ∈ sanitizeParts name, p ≠ "" ∧ p ≠ "." ∧ p ≠ ".." := by
  intro p hp
  have hcond := (List.mem_filter.mp hp).2
  refine ⟨?_, ?_, ?_⟩ <;> intro hbad <;> subst hbad <;> simp at hcond

theorem properAncestors_ne_nil (p : List String) :
    ∀ q ∈ properAncestors p, q ≠ [] := by
  intro q hq
  obtain ⟨i, hi, rfl⟩ := List.mem_map.mp hq
  have hi2 : i < p.length - 1 := List.mem_range.mp hi
  intro hnil
  have hlen : (p.take (i + 1)).length = 0 := by rw [hnil]; rfl
  rw [List.length_take] at hlen
  omega

theorem properAncestors_length_lt (p : List String) :
    ∀ q ∈ properAncestors p, q.length < p.length := by
  intro q hq
  obtain ⟨i, hi, rfl⟩ := List.mem_map.mp hq
  have hi2 : i < p.length - 1 := List.mem_range.mp hi
  rw [List.length_take]
  omega

theorem dropLast_mem_properAncestors (p : List String) (hne : p ≠ [])
    (hd : p.dropLast ≠ []) : p.dropLast ∈ properAncestors p := by
  have hlen : 2 ≤ p.length := by
    rcases p with _ | ⟨a, q⟩
    · exact absurd rfl hne
    · rcases q with _ | ⟨b, r⟩
      · exact absurd rfl hd
      · simp
  rw [List.dropLast_eq_take]
  refine List.mem_map.mpr ⟨p.length - 2, List.mem_range.mpr (by omega), ?_⟩
  congr 1
  omega

theorem properAncestors_dropLast_subset (p : List String) :
    ∀ q ∈ properAncestors p.dropLast, q ∈ properAncestors p := by
  intro q hq
  obtain ⟨i, hi, rfl⟩ := List.mem_map.mp hq
  have hi2 : i < p.dropLast.length - 1 := List.mem_range.mp hi
  rw [List.length_dropLast] at hi2
  refine List.mem_map.mpr ⟨i, List.mem_range.mpr (by omega), ?_⟩
  rw [List.dropLast_eq_take, List.take_take]
  congr 1
  omega

theorem makedirsM_ok (st : FsState) (upper : List String) (st2 : FsState)
    (h : makedirsM st upper = Except.ok st2) :
    st2.files = st.files ∧
    ∀ q ∈ st2.dirs, q ∈ st.dirs ∨ q ∈ properAncestors upper ∨ q = upper := by
  simp only [makedirsM] at h
  split at h
  · exact Except.noConfusion h
  · cases h
    refine ⟨rfl, ?_⟩
    intro q hq
    rcases List.mem_append.mp hq with hq | hq
    · exact Or.inl hq
    · have hq2 := (List.mem_filter.mp hq).1
      rcases List.mem_append.mp hq2 with hq3 | hq3
      · exact Or.inr (Or.inl hq3)
      · exact Or.inr (Or.inr (List.mem_singleton.mp hq3))

theorem ensureUpper_files (st : FsState) (upper : List String) (st2 : FsState)
    (h : ensureUpper st upper = Except.ok st2) : st2.files = st.files := by
  simp only [ensureUpper] at h
  split at h
  · cases h; rfl
  · exact (makedirsM_ok _ _ _ h).1

theorem ensureUpper_dirs (st : FsState) (upper : List String) (st2 : FsState)
    (h : ensureUpper st upper = Except.ok st2) :
    ∀ q ∈ st2.dirs, q ∈ st.dirs ∨
      (upper ≠ [] ∧ (q ∈ properAncestors upper ∨ q = upper)) := by
  simp only [ensureUpper] at h
  split at h
  · cases h
    exact fun q hq => Or.inl hq
  · next hcond =>
    have hne : upper ≠ [] := fun h0 => hcond (Or.inl h0)
    intro q hq
    rcases (makedirsM_ok _ _ _ h).2 q hq with h2 | h2 | h2
    · exact Or.inl h2
    · exact Or.inr ⟨hne, Or.inl h2⟩
    · exact Or.inr ⟨hne, Or.inr h2⟩

theorem ensureUpper_ok (st : FsState) (upper : List String)
    (hno : ∀ q ∈ properAncestors upper, q ∉ st.files) :
    ∃ st2, ensureUpper st upper = Except.ok st2 := by
  simp only [ensureUpper]
  split
  · exact ⟨st, rfl⟩
  · have hcond : ¬((properAncestors upper).any (fun q => st.files.contains q) = true) := by
      intro hc
      rw [List.any_eq_true] at hc
      obtain ⟨q, hq, hqc⟩ := hc
      exact hno q hq (List.elem_iff.mp hqc)
    exact ⟨_, by unfold makedirsM; rw [if_neg hcond]⟩

theorem extractMember_dir_ok (st : FsState) (e : String)
    (hdir : isDirEntry e = true)
    (hf1 : ∀ q ∈ st.files, q ∉ properAncestors (sanitizeParts e))
    (hf2 : ∀ q ∈ st.files, q ≠ sanitizeParts e) :
    ∃ st2, extractMember st e = Except.ok st2 ∧ st2.files = st.files ∧
      (∀ q ∈ st2.dirs, q ∈ st.dirs ∨ q ∈ properAncestors (sanitizeParts e) ∨
        (q = sanitizeParts e ∧ sanitizeParts e ≠ [])) := by
  have hup : ∀ q ∈ properAncestors ((sanitizeParts e).dropLast), q ∉ st.files :=
    fun q hq hqf => hf1 q hqf (properAncestors_dropLast_subset _ q hq)
  obtain ⟨stM, hsM⟩ := ensureUpper_ok st _ hup
  have hfm : stM.files = st.files := ensureUpper_files _ _ _ hsM
  have hdm := ensureUpper_dirs _ _ _ hsM
  have hdm2 : ∀ q ∈ stM.dirs,
      q ∈ st.dirs ∨ q ∈ properAncestors (sanitizeParts e) := by
    intro q hq
    rcases hdm q hq with h | ⟨hne, h | h⟩
    · exact Or.inl h
    · exact Or.inr (properAncestors_dropLast_subset _ q h)
    · have hPne : sanitizeParts e ≠ [] := by
        intro h0
        apply hne
        rw [h0]
        rfl
      exact Or.inr (h ▸ dropLast_mem_properAncestors _ hPne hne)
  simp only [extractMember]
  rw [hsM, except_bind_ok, if_pos hdir]
  by_cases h1 : sanitizeParts e = [] ∨ stM.dirs.contains (sanitizeParts e) = true
  · rw [if_pos h1]
    exact ⟨stM, rfl, hfm, fun q hq => (hdm2 q hq).imp id Or.inl⟩
  · rw [if_neg h1]
    have h2 : ¬(stM.files.contains (sanitizeParts e) = true) := by
      intro hc
      exact hf2 _ (hfm ▸ List.elem_iff.mp hc) rfl
    rw [if_neg h2]
    have h3 : ¬((sanitizeParts e).dropLast ≠ [] ∧
        stM.files.contains ((sanitizeParts e).dropLast) = true) := by
      rintro ⟨hne, hc⟩
      have hqf : (sanitizeParts e).dropLast ∈ st.files := hfm ▸ List.elem_iff.mp hc
      have hPne : sanitizeParts e ≠ [] := by
        intro h0
        apply hne
        rw [h0]
        rfl
      exact hf1 _ hqf (dropLast_mem_properAncestors _ hPne hne)
    rw [if_neg h3]
    refine ⟨_, rfl, hfm, ?_⟩
    intro q hq
    rcases List.mem_append.mp hq with hq | hq
    · exact (hdm2 q hq).imp id Or.inl
    · refine Or.inr (Or.inr ⟨List.mem_singleton.mp hq, ?_⟩)
      intro h0
      exact h1 (Or.inl h0)

theorem extractMember_file_ok (st : FsState) (e : String)
    (hdir : isDirEntry e = false)
    (hPne : sanitizeParts e ≠ [])
    (hnd : ∀ q ∈ st.dirs, q ≠ sanitizeParts e)
    (hf1 : ∀ q ∈ st.files, q ∉ properAncestors (sanitizeParts e))
    (hf2 : ∀ q ∈ st.files, q ≠ sanitizeParts e) :
    ∃ st2, extractMember st e = Except.ok st2 ∧
      st2.files = st.files ++ [sanitizeParts e] ∧
      (∀ q ∈ st2.dirs, q ∈ st.dirs ∨ q ∈ properAncestors (sanitizeParts e)) := by
  have hup : ∀ q ∈ properAncestors ((sanitizeParts e).dropLast), q ∉ st.files :=
    fun q hq hqf => hf1 q hqf (properAncestors_dropLast_subset _ q hq)
  obtain ⟨stM, hsM⟩ := ensureUpper_ok st _ hup
  have hfm : stM.files = st.files := ensureUpper_files _ _ _ hsM
  have hdm := ensureUpper_dirs _ _ _ hsM
  have hdm2 : ∀ q ∈ stM.dirs,
      q ∈ st.dirs ∨ q ∈ properAncestors (sanitizeParts e) := by
    intro q hq
    rcases hdm q hq with h | ⟨hne, h | h⟩
    · exact Or.inl h
    · exact Or.inr (properAncestors_dropLast_subset _ q h)
    · exact Or.inr (h ▸ dropLast_mem_properAncestors _ hPne hne)
  have hdircond : ¬(isDirEntry e = true) := by
    rw [hdir]
    exact Bool.false_ne_true
  simp only [extractMember]
  rw [hsM, except_bind_ok, if_neg hdircond]
  have h1 : ¬(sanitizeParts e = [] ∨ stM.dirs.contains (sanitizeParts e) = true) := by
    rintro (h0 | hc)
    · exact hPne h0
    · have hmemd : sanitizeParts e ∈ stM.dirs := List.elem_iff.mp hc
      rcases hdm2 _ hmemd with h | h
      · exact hnd _ h rfl
      · have := properAncestors_length_lt _ _ h
        omega
  rw [if_neg h1]
  have h3 : ¬((sanitizeParts e).dropLast ≠ [] ∧
      stM.files.contains ((sanitizeParts e).dropLast) = true) := by
    rintro ⟨hne, hc⟩
    exact hf1 _ (hfm ▸ List.elem_iff.mp hc)
      (dropLast_mem_properAncestors _ hPne hne)
  rw [if_neg h3]
  have h2 : ¬(stM.files.contains (sanitizeParts e) = true) := by
    intro hc
    exact hf2 _ (hfm ▸ List.elem_iff.mp hc) rfl
  rw [if_neg h2]
  refine ⟨_, rfl, ?_, ?_⟩
  · rw [hfm]
  · intro q hq
    exact hdm2 q hq

theorem extractAllState_ok_of_safe (todo : List String) :
    ∀ st : FsState,
    (∀ f ∈ todo, ¬isDirEntry f = true → sanitizeParts f ≠ []) →
    (∀ f ∈ todo, ¬isDirEntry f = true → ∀ e2 ∈ todo,
      sanitizeParts f ∉ properAncestors (sanitizeParts e2)) →
    (∀ f ∈ todo, ¬isDirEntry f = true → ∀ d ∈ todo, isDirEntry d = true →
      sanitizeParts f ≠ sanitizeParts d) →
    ((todo.filter (fun e => !(isDirEntry e))).map sanitizeParts).Nodup →
    (∀ q ∈ st.dirs, q ≠ []) →
    (∀ q ∈ st.dirs, ∀ f ∈ todo, ¬isDirEntry f = true → q ≠ sanitizeParts f) →
    (∀ q ∈ st.files, ∀ e2 ∈ todo, q ∉ properAncestors (sanitizeParts e2)) →
    (∀ q ∈ st.files, ∀ e2 ∈ todo, q ≠ sanitizeParts e2) →
    ∃ dirs2, extractAllState todo st = Except.ok
      ⟨dirs2, st.files ++ (todo.filter (fun e => !(isDirEntry e))).map sanitizeParts⟩ := by
  induction todo with
  | nil =>
    intro st _ _ _ _ _ _ _ _
    exact ⟨st.dirs, by simp [extractAllState]⟩
  | cons e rest ih =>
    intro st hT1 hT3 hT4 hTnd hD1 hD2 hF1 hF2
    by_cases hdir : isDirEntry e = true
    · obtain ⟨st3, hm, hmf, hmd⟩ := extractMember_dir_ok st e hdir
        (fun q hq => hF1 q hq e (List.mem_cons_self _ _))
        (fun q hq => hF2 q hq e (List.mem_cons_self _ _))
      have hD1b : ∀ q ∈ st3.dirs, q ≠ [] := by
        intro q hq
        rcases hmd q hq with h | h | ⟨h, hne⟩
        · exact hD1 q h
        · exact properAncestors_ne_nil _ q h
        · rw [h]; exact hne
      have hD2b : ∀ q ∈ st3.dirs, ∀ f ∈ rest, ¬isDirEntry f = true →
          q ≠ sanitizeParts f := by
        intro q hq f hf hfile
        rcases hmd q hq with h | h | ⟨h, _⟩
        · exact hD2 q h f (List.mem_cons_of_mem _ hf) hfile
        · intro heq
          exact hT3 f (List.mem_cons_of_mem _ hf) hfile e
            (List.mem_cons_self _ _) (heq ▸ h)
        · intro heq
          exact hT4 f (List.mem_cons_of_mem _ hf) hfile e
            (List.mem_cons_self _ _) hdir (heq.symm.trans h)
      obtain ⟨dirs2, hrest⟩ := ih st3
        (fun f hf => hT1 f (List.mem_cons_of_mem _ hf))
        (fun f hf hfile e2 he2 => hT3 f (List.mem_cons_of_mem _ hf) hfile e2
          (List.mem_cons_of_mem _ he2))
        (fun f hf hfile d hd => hT4 f (List.mem_cons_of_mem _ hf) hfile d
          (List.mem_cons_of_mem _ hd))
        (by simpa [hdir] using hTnd)
        hD1b hD2b
        (fun q hq e2 he2 => hF1 q (hmf ▸ hq) e2 (List.mem_cons_of_mem _ he2))
        (fun q hq e2 he2 => hF2 q (hmf ▸ hq) e2 (List.mem_cons_of_mem _ he2))
      refine ⟨dirs2, ?_⟩
      simp only [extractAllState]
      rw [hm, except_bind_ok, hrest, hmf]
      simp [hdir]
    · have hdirf : isDirEntry e = false := Bool.eq_false_iff.mpr hdir
      have hPne : sanitizeParts e ≠ [] := hT1 e (List.mem_cons_self _ _) hdir
      obtain ⟨st3, hm, hmf, hmd⟩ := extractMember_file_ok st e hdirf hPne
        (fun q hq => hD2 q hq e (List.mem_cons_self _ _) hdir)
        (fun q hq => hF1 q hq e (List.mem_cons_self _ _))
        (fun q hq => hF2 q hq e (List.mem_cons_self _ _))
      have hD1b : ∀ q ∈ st3.dirs, q ≠ [] := by
        intro q hq
        rcases hmd q hq with h | h
        · exact hD1 q h
        · exact properAncestors_ne_nil _ q h
      have hD2b : ∀ q ∈ st3.dirs, ∀ f ∈ rest, ¬isDirEntry f = true →
          q ≠ sanitizeParts f := by
        intro q hq f hf hfile
        rcases hmd q hq with h | h
        · exact hD2 q h f (List.mem_cons_of_mem _ hf) hfile
        · intro heq
          exact hT3 f (List.mem_cons_of_mem _ hf) hfile e
            (List.mem_cons_self _ _) (heq ▸ h)
      have hfilter : ((e :: rest).filter (fun x => !(isDirEntry x))).map sanitizeParts =
          sanitizeParts e :: (rest.filter (fun x => !(isDirEntry x))).map sanitizeParts := by
        simp [hdirf]
      rw [hfilter] at hTnd
      have hTnd2 := List.nodup_cons.mp hTnd
      have hF1b : ∀ q ∈ st3.files, ∀ e2 ∈ rest,
          q ∉ properAncestors (sanitizeParts e2) := by
        intro q hq e2 he2
        rw [hmf] at hq
        rcases List.mem_append.mp hq with hq2 | hq2
        · exact hF1 q hq2 e2 (List.mem_cons_of_mem _ he2)
        · rw [List.mem_singleton.mp hq2]
          exact hT3 e (List.mem_cons_self _ _) hdir e2 (List.mem_cons_of_mem _ he2)
      have hF2b : ∀ q ∈ st3.files, ∀ e2 ∈ rest, q ≠ sanitizeParts e2 := by
        intro q hq e2 he2
        rw [hmf] at hq
        rcases List.mem_append.mp hq with hq2 | hq2
        · exact hF2 q hq2 e2 (List.mem_cons_of_mem _ he2)
        · rw [List.mem_singleton.mp hq2]
          by_cases hd2 : isDirEntry e2 = true
          · exact hT4 e (List.mem_cons_self _ _) hdir e2
              (List.mem_cons_of_mem _ he2) hd2
          · intro heq
            apply hTnd2.1
            refine List.mem_map.mpr ⟨e2, ?_, heq.symm⟩
            exact List.mem_filter.mpr ⟨he2, by simp [Bool.eq_false_iff.mpr hd2]⟩
      obtain ⟨dirs2, hrest⟩ := ih st3
        (fun f hf => hT1 f (List.mem_cons_of_mem _ hf))
        (fun f hf hfile e2 he2 => hT3 f (List.mem_cons_of_mem _ hf) hfile e2
          (List.mem_cons_of_mem _ he2))
        (fun f hf hfile d hd => hT4 f (List.mem_cons_of_mem _ hf) hfile d
          (List.mem_cons_of_mem _ hd))
        hTnd2.2 hD1b hD2b hF1b hF2b
      refine ⟨dirs2, ?_⟩
      simp only [extractAllState]
      rw [hm, except_bind_ok, hrest, hmf, hfilter]
      simp

theorem extractall_ok_of_safe (entries : List String)
    (hsafe : ∀ e ∈ entries, ¬isDirEntry e → sanitizeName e = e ∧ e ≠ "")
    (hnodup : (entries.filter (fun e => !(isDirEntry e))).Nodup)
    (hnc : ∀ f ∈ entries, ¬isDirEntry f = true →
      (∀ e2 ∈ entries, sanitizeParts f ∉ properAncestors (sanitizeParts e2)) ∧
      (∀ d ∈ entries, isDirEntry d = true → sanitizeParts f ≠ sanitizeParts d)) :
    extractallFiles entries =
      Except.ok (entries.filter (fun e => !(isDirEntry e))) := by
  have hT1 : ∀ f ∈ entries, ¬isDirEntry f = true → sanitizeParts f ≠ [] := by
    intro f hf hfile hnil
    have h := hsafe f hf hfile
    apply h.2
    rw [← h.1, sanitizeName, hnil]
    rfl
  have hinj : ∀ x ∈ entries.filter (fun e => !(isDirEntry e)),
      ∀ y ∈ entries.filter (fun e => !(isDirEntry e)),
      sanitizeParts x = sanitizeParts y → x = y := by
    intro x hx y hy hxy
    have hx2 := List.mem_filter.mp hx
    have hy2 := List.mem_filter.mp hy
    have hx3 := (hsafe x hx2.1 (by simpa using hx2.2)).1
    have hy3 := (hsafe y hy2.1 (by simpa using hy2.2)).1
    rw [← hx3, ← hy3, sanitizeName, sanitizeName, hxy]
  have hTnd := hnodup.map_on hinj
  obtain ⟨dirs2, hrun⟩ := extractAllState_ok_of_safe entries ⟨[], []⟩
    hT1 (fun f hf hfile => (hnc f hf hfile).1)
    (fun f hf hfile => (hnc f hf hfile).2)
    hTnd (by simp) (by simp) (by simp) (by simp)
  simp only [extractallFiles, hrun, except_bind_ok]
  congr 1
  rw [List.nil_append, List.map_map]
  exact list_map_self _ _ (fun a ha => (hsafe a (List.mem_filter.mp ha).1
    (by simpa using (List.mem_filter.mp ha).2)).1)

theorem upload_trace_countP (sd : String) (b : JVal) (fs : List String)
    (ok : Nat → Bool) (p : Action → Bool)
    (hp : ∀ c s bk k m, p (Action.uploadFile c s bk k m) = false) :
    (upload_to_s3 sd b fs ok).1.countP p = 0 := by
  rw [List.countP_eq_zero]
  intro a ha
  obtain ⟨f, _, rfl⟩ := upload_to_s3_trace_mem sd b fs ok a ha
  simp [mkUpload, hp]

theorem uploadKeys_map_mkUpload (sd : String) (b : JVal) (fs : List String) :
    uploadKeys (fs.map (mkUpload sd b)) = fs := by
  induction fs with
  | nil => rfl
  | cons f rest ih =>
    rw [List.map_cons]
    rw [show uploadKeys (mkUpload sd b f :: rest.map (mkUpload sd b)) =
      f :: uploadKeys (rest.map (mkUpload sd b)) from rfl]
    rw [ih]

theorem uploadActs_map_mkUpload (sd : String) (b : JVal) (fs : List String) :
    uploadActs (fs.map (mkUpload sd b)) = fs.map (mkUpload sd b) := by
  induction fs with
  | nil => rfl
  | cons f rest ih =>
    rw [List.map_cons]
    rw [show uploadActs (mkUpload sd b f :: rest.map (mkUpload sd b)) =
      mkUpload sd b f :: uploadActs (rest.map (mkUpload sd b)) from rfl]
    rw [ih]

theorem uploadActs_append (l1 l2 : List Action) :
    uploadActs (l1 ++ l2) = uploadActs l1 ++ uploadActs l2 := by
  simp [uploadActs]

theorem uploadKeys_append (l1 l2 : List Action) :
    uploadKeys (l1 ++ l2) = uploadKeys l1 ++ uploadKeys l2 := by
  simp [uploadKeys]

/-- C1: for every valid zip archive delivered to lambda_handler (here: a
successful download of a well-formed archive whose entry names are plain
relative paths, pairwise distinct among the non-directory entries and
free of file/directory collisions: no file entry path is an ancestor
prefix of another entry path or coincides with a directory-marker path,
with all uploads succeeding), every non-directory entry of the archive
is uploaded to the resolved destination bucket exactly once, with the
destination key equal to the relative path of the entry inside the
archive, and directory-marker entries produce no upload: the upload
actions of the trace are exactly one per non-directory entry, in order. -/
theorem claim_C1_every_entry_uploaded_once
    (env : Env) (ev : Event) (statics3 : JVal)
    (hart : ev.data.inputArtifacts ≠ [])
    (hbucket : get_static_bucket ev.data = Except.ok statics3)
    (hdl : env.downloadOk = true) (hzip : env.zipValid = true)
    (hsafe : ∀ e ∈ env.zipEntries, ¬isDirEntry e → sanitizeName e = e ∧ e ≠ "")
    (hnodup : (env.zipEntries.filter (fun e => !(isDirEntry e))).Nodup)
    (hnc : ∀ f ∈ env.zipEntries, ¬isDirEntry f = true →
      (∀ e2 ∈ env.zipEntries,
        sanitizeParts f ∉ properAncestors (sanitizeParts e2)) ∧
      (∀ d ∈ env.zipEntries, isDirEntry d = true →
        sanitizeParts f ≠ sanitizeParts d))
    (hup : ∀ i, env.uploadOk i = true) :
    uploadActs (lambda_handler env ev).1 =
      (env.zipEntries.filter (fun e => !(isDirEntry e))).map
        (mkUpload tmpDirPath statics3) ∧
    uploadKeys (lambda_handler env ev).1 =
      env.zipEntries.filter (fun e => !(isDirEntry e)) ∧
    (∀ e ∈ env.zipEntries.filter (fun e => !(isDirEntry e)),
      (uploadKeys (lambda_handler env ev).1).count e = 1) := by
  rcases harts : ev.data.inputArtifacts with _ | ⟨art, rest⟩
  · exact absurd harts hart
  have hextract := extractall_ok_of_safe env.zipEntries hsafe hnodup hnc
  have hupload := upload_to_s3_success tmpDirPath statics3
    (env.zipEntries.filter (fun e => !(isDirEntry e))) env.uploadOk hup
  have htrace : lambda_handler env ev =
      ([Action.createTempDir tmpDirPath, Action.createTempFile tmpFilePath,
        Action.downloadFile (setup_s3_client ev.data) art.location.bucketName
          art.location.objectKey tmpFilePath] ++
        [Action.removeTempFile tmpFilePath] ++
        (env.zipEntries.filter (fun e => !(isDirEntry e))).map
          (mkUpload tmpDirPath statics3) ++
        [Action.putJobSuccess ev.jobId], Except.ok ()) := by
    simp only [lambda_handler, harts, hbucket, hdl, hzip, hextract, hupload, if_true]
  rw [htrace]
  have hkeys : uploadKeys
      ([Action.createTempDir tmpDirPath, Action.createTempFile tmpFilePath,
        Action.downloadFile (setup_s3_client ev.data) art.location.bucketName
          art.location.objectKey tmpFilePath] ++
        [Action.removeTempFile tmpFilePath] ++
        (env.zipEntries.filter (fun e => !(isDirEntry e))).map
          (mkUpload tmpDirPath statics3) ++
        [Action.putJobSuccess ev.jobId]) =
      env.zipEntries.filter (fun e => !(isDirEntry e)) := by
    rw [uploadKeys_append, uploadKeys_append, uploadKeys_append,
      uploadKeys_map_mkUpload]
    simp [uploadKeys]
  refine ⟨?_, hkeys, ?_⟩
  · rw [uploadActs_append, uploadActs_append, uploadActs_append,
      uploadActs_map_mkUpload]
    simp [uploadActs, isUploadAct]
  · intro e he
    rw [hkeys]
    exact List.count_eq_one_of_mem hnodup he

/-- C1 witness: the end-to-end scenario of the spec, an archive holding
index.html, a css directory marker and css/site.css, published to
my-site-bucket. -/
theorem claim_C1_every_entry_uploaded_once_witness :
    uploadActs (lambda_handler
        ⟨true, true, ["index.html", "css/", "css/site.css"], fun _ => true⟩
        ⟨"job-1", ⟨⟨"AK", "SK", "ST"⟩, [⟨⟨"build-artifacts", "job-42.zip"⟩⟩],
          "\x7b\"staticS3\": \"my-site-bucket\"\x7d"⟩⟩).1 =
      ((["index.html", "css/", "css/site.css"] :
          List String).filter (fun e => !(isDirEntry e))).map
        (mkUpload tmpDirPath (JVal.str "my-site-bucket")) ∧
    uploadKeys (lambda_handler
        ⟨true, true, ["index.html", "css/", "css/site.css"], fun _ => true⟩
        ⟨"job-1", ⟨⟨"AK", "SK", "ST"⟩, [⟨⟨"build-artifacts", "job-42.zip"⟩⟩],
          "\x7b\"staticS3\": \"my-site-bucket\"\x7d"⟩⟩).1 =
      (["index.html", "css/", "css/site.css"] :
        List String).filter (fun e => !(isDirEntry e)) ∧
    (∀ e ∈ (["index.html", "css/", "css/site.css"] :
        List String).filter (fun e => !(isDirEntry e)),
      (uploadKeys (lambda_handler
          ⟨true, true, ["index.html", "css/", "css/site.css"], fun _ => true⟩
          ⟨"job-1", ⟨⟨"AK", "SK", "ST"⟩, [⟨⟨"build-artifacts", "job-42.zip"⟩⟩],
            "\x7b\"staticS3\": \"my-site-bucket\"\x7d"⟩⟩).1).count e = 1) :=
  claim_C1_every_entry_uploaded_once
    ⟨true, true, ["index.html", "css/", "css/site.css"], fun _ => true⟩
    ⟨"job-1", ⟨⟨"AK", "SK", "ST"⟩, [⟨⟨"build-artifacts", "job-42.zip"⟩⟩],
      "\x7b\"staticS3\": \"my-site-bucket\"\x7d"⟩⟩
    (JVal.str "my-site-bucket") (by decide) (by rfl) rfl rfl (by decide)
    (by decide) (by decide) (fun i => rfl)

/-- C2 (amended): lambda_handler contains no failure-report call at all:
on every run the trace carries zero failure reports to the completion
sink, and it carries exactly one success report when the invocation
returns normally and no completion report of any kind when it
terminates with a propagated exception. -/
theorem claim_C2_no_failure_report_ever (env : Env) (ev : Event) :
    (lambda_handler env ev).1.countP isFailureAct = 0 ∧
    (lambda_handler env ev).1.countP isSuccessAct =
      (if exceptOk (lambda_handler env ev).2 then 1 else 0) := by
  have hfail : ∀ c s bk k m,
      isFailureAct (Action.uploadFile c s bk k m) = false := fun _ _ _ _ _ => rfl
  have hsucc : ∀ c s bk k m,
      isSuccessAct (Action.uploadFile c s bk k m) = false := fun _ _ _ _ _ => rfl
  rcases harts : ev.data.inputArtifacts with _ | ⟨art, arest⟩
  · simp [lambda_handler, harts, exceptOk]
  rcases hgs : get_static_bucket ev.data with e | statics3
  · simp [lambda_handler, harts, hgs, exceptOk]
  cases hdl : env.downloadOk with
  | false =>
    simp [lambda_handler, harts, hgs, hdl, exceptOk, isFailureAct, isSuccessAct]
  | true =>
  cases hzv : env.zipValid with
  | false =>
    simp [lambda_handler, harts, hgs, hdl, hzv, exceptOk, isFailureAct, isSuccessAct]
  | true =>
  rcases hex : extractallFiles env.zipEntries with e | files
  · simp [lambda_handler, harts, hgs, hdl, hzv, hex, exceptOk, isFailureAct,
      isSuccessAct]
  rcases hup : (upload_to_s3 tmpDirPath statics3 files env.uploadOk).2 with e | u
  · simp [lambda_handler, harts, hgs, hdl, hzv, hex, hup, exceptOk,
      isFailureAct, isSuccessAct, List.countP_append,
      upload_trace_countP _ _ _ _ isFailureAct hfail,
      upload_trace_countP _ _ _ _ isSuccessAct hsucc]
  · simp [lambda_handler, harts, hgs, hdl, hzv, hex, hup, exceptOk,
      isFailureAct, isSuccessAct, List.countP_append,
      upload_trace_countP _ _ _ _ isFailureAct hfail,
      upload_trace_countP _ _ _ _ isSuccessAct hsucc]

/-- C2 counterexample: on a run whose UserParameters string is not
decodable, the invocation terminates with a propagated exception and
the trace carries no failure report and no success report, refuting the
claim that every fatal error produces exactly one failure report and
that the invocation never terminates unreported. -/
theorem claim_C2_counterexample :
    (lambda_handler ⟨true, true, [], fun _ => true⟩
        ⟨"job-1", ⟨⟨"AK", "SK", "ST"⟩, [⟨⟨"build-artifacts", "job-42.zip"⟩⟩],
          "notjson"⟩⟩).2 =
      Except.error (PyErr.exn "UserParameters could not be decoded as JSON") ∧
    (lambda_handler ⟨true, true, [], fun _ => true⟩
        ⟨"job-1", ⟨⟨"AK", "SK", "ST"⟩, [⟨⟨"build-artifacts", "job-42.zip"⟩⟩],
          "notjson"⟩⟩).1.countP isFailureAct = 0 ∧
    (lambda_handler ⟨true, true, [], fun _ => true⟩
        ⟨"job-1", ⟨⟨"AK", "SK", "ST"⟩, [⟨⟨"build-artifacts", "job-42.zip"⟩⟩],
          "notjson"⟩⟩).1.countP isSuccessAct = 0 :=
  ⟨rfl, rfl, rfl⟩

theorem lookup_mem {α : Type} (k : String) (v : α) :
    ∀ l : List (String × α), l.lookup k = some v → (k, v) ∈ l := by
  intro l
  induction l with
  | nil => intro h; simp [List.lookup] at h
  | cons kv rest ih =>
    intro h
    rcases kv with ⟨k2, v2⟩
    by_cases hk : k = k2
    · subst hk
      simp [List.lookup] at h
      subst h
      exact List.mem_cons_self _ _
    · have hbeq : (k == k2) = false := beq_false_of_ne hk
      simp only [List.lookup, hbeq] at h
      exact List.mem_cons_of_mem _ (ih h)

/-- C3 counterexample: an archive entry whose path escapes the
extraction root, such as ../../etc/passwd, does not make extraction
fail with an integrity error; extractall succeeds and silently writes
the entry at its stripped relative path etc/passwd inside the root. -/
theorem claim_C3_counterexample :
    extractallFiles ["../../etc/passwd"] = Except.ok ["etc/passwd"] := by rfl

/-- C3 (amended): extraction never fails on an escaping entry path; the
zipfile sanitizer instead drops empty, dot and dot-dot components, so
that on every input every materialized file lies inside the extraction
root: whenever extraction returns a file set, each file path is a
nonempty join of components none of which is empty, a dot or a dot-dot,
hence resolves strictly below the root. -/
theorem extractMember_files_cases (st : FsState) (name : String) (st2 : FsState)
    (h : extractMember st name = Except.ok st2) :
    ∀ q ∈ st2.files, q ∈ st.files ∨ (q = sanitizeParts name ∧ q ≠ []) := by
  simp only [extractMember] at h
  rcases hs : ensureUpper st ((sanitizeParts name).dropLast) with err | stM
  · rw [hs, except_bind_error] at h
    exact Except.noConfusion h
  · rw [hs, except_bind_ok] at h
    have hfm : stM.files = st.files := ensureUpper_files _ _ _ hs
    by_cases hdir : isDirEntry name = true
    · rw [if_pos hdir] at h
      by_cases h1 : sanitizeParts name = [] ∨ stM.dirs.contains (sanitizeParts name) = true
      · rw [if_pos h1] at h
        cases h
        exact fun q hq => Or.inl (hfm ▸ hq)
      · rw [if_neg h1] at h
        by_cases h2 : stM.files.contains (sanitizeParts name) = true
        · rw [if_pos h2] at h
          exact Except.noConfusion h
        · rw [if_neg h2] at h
          by_cases h3 : (sanitizeParts name).dropLast ≠ [] ∧
              stM.files.contains ((sanitizeParts name).dropLast) = true
          · rw [if_pos h3] at h
            exact Except.noConfusion h
          · rw [if_neg h3] at h
            cases h
            exact fun q hq => Or.inl (hfm ▸ hq)
    · rw [if_neg hdir] at h
      by_cases h1 : sanitizeParts name = [] ∨ stM.dirs.contains (sanitizeParts name) = true
      · rw [if_pos h1] at h
        exact Except.noConfusion h
      · rw [if_neg h1] at h
        by_cases h3 : (sanitizeParts name).dropLast ≠ [] ∧
            stM.files.contains ((sanitizeParts name).dropLast) = true
        · rw [if_pos h3] at h
          exact Except.noConfusion h
        · rw [if_neg h3] at h
          by_cases h2 : stM.files.contains (sanitizeParts name) = true
          · rw [if_pos h2] at h
            cases h
            exact fun q hq => Or.inl (hfm ▸ hq)
          · rw [if_neg h2] at h
            cases h
            intro q hq
            rcases List.mem_append.mp
                (show q ∈ stM.files ++ [sanitizeParts name] from hq) with hq2 | hq2
            · exact Or.inl (hfm ▸ hq2)
            · refine Or.inr ⟨List.mem_singleton.mp hq2, ?_⟩
              rw [List.mem_singleton.mp hq2]
              intro hnil
              exact h1 (Or.inl hnil)

theorem extractAllState_files_clean (todo : List String) :
    ∀ st st2 : FsState,
    extractAllState todo st = Except.ok st2 →
    (∀ q ∈ st.files, q ≠ [] ∧ ∀ p ∈ q, p ≠ "" ∧ p ≠ "." ∧ p ≠ "..") →
    ∀ q ∈ st2.files, q ≠ [] ∧ ∀ p ∈ q, p ≠ "" ∧ p ≠ "." ∧ p ≠ ".." := by
  induction todo with
  | nil =>
    intro st st2 h hinv
    simp only [extractAllState] at h
    cases h
    exact hinv
  | cons e rest ih =>
    intro st st2 h hinv
    simp only [extractAllState] at h
    rcases hm : extractMember st e with err | stM
    · rw [hm, except_bind_error] at h
      exact Except.noConfusion h
    · rw [hm, except_bind_ok] at h
      refine ih stM st2 h ?_
      intro q hq
      rcases extractMember_files_cases st e stM hm q hq with hq2 | ⟨hqe, hqne⟩
      · exact hinv q hq2
      · subst hqe
        exact ⟨hqne, sanitizeParts_clean e⟩

theorem claim_C3_extraction_stays_in_root (entries files : List String)
    (h : extractallFiles entries = Except.ok files) :
    ∀ f ∈ files, ∃ parts : List String, parts ≠ [] ∧
      (∀ p ∈ parts, p ≠ "" ∧ p ≠ "." ∧ p ≠ "..") ∧
      f = String.intercalate "/" parts := by
  intro f hf
  simp only [extractallFiles] at h
  rcases hst : extractAllState entries ⟨[], []⟩ with err | st
  · rw [hst, except_bind_error] at h
    exact Except.noConfusion h
  · rw [hst, except_bind_ok] at h
    have hfe : st.files.map (String.intercalate "/") = files := by
      injection h
    rw [← hfe] at hf
    obtain ⟨q, hq, hfeq⟩ := List.mem_map.mp hf
    have hclean := extractAllState_files_clean entries ⟨[], []⟩ st hst
      (by simp) q hq
    exact ⟨q, hclean.1, hclean.2, hfeq.symm⟩

/-- C3 witness: an archive with an escaping entry, a directory marker
and a file path holding a dot component extracts to the two sanitized
in-root paths. -/
theorem claim_C3_extraction_stays_in_root_witness :
    ∃ parts : List String, parts ≠ [] ∧
      (∀ p ∈ parts, p ≠ "" ∧ p ≠ "." ∧ p ≠ "..") ∧
      "etc/passwd" = String.intercalate "/" parts :=
  claim_C3_extraction_stays_in_root ["../../etc/passwd", "docs/", "a/./b.txt"]
    ["etc/passwd", "a/b.txt"] (by rfl) "etc/passwd" (List.mem_cons_self _ _)

theorem types_map_keys_plain :
    ∀ p ∈ types_map, suffix_map.lookup p.1 = none ∧
      encodings_map.lookup p.1 = none := by decide

theorem guess_type_of_recognized (url t : String)
    (h : types_map.lookup (posixSplitext url).2 = some t) :
    guess_type url = some t := by
  have hdis := types_map_keys_plain _ (lookup_mem _ _ _ h)
  rcases hbe : posixSplitext url with ⟨base, ext⟩
  rw [hbe] at h hdis
  simp only [guess_type, hbe]
  rw [show (4 : Nat) = 3 + 1 from rfl]
  simp only [expandSuffix, hdis.1, hdis.2, Option.isSome_none,
    Bool.false_eq_true, if_false, h]

/-- C4 (amended): the content type of every upload is inferred per file
from its path: when the extension of the path is recognized by the
extension table the uploaded content type equals the table result, and
when no heuristic matches the uploaded content type equals the literal
fallback of the code, binary/octet-stream, not application/octet-stream. -/
theorem claim_C4_content_type_per_file (sd : String) (b : JVal)
    (fs : List String) (ok : Nat → Bool) (a : Action)
    (ha : a ∈ (upload_to_s3 sd b fs ok).1) :
    ∃ f ∈ fs, a = mkUpload sd b f ∧
      (∀ t, types_map.lookup (posixSplitext (sd ++ "/" ++ f)).2 = some t →
        mimeOrDefault (sd ++ "/" ++ f) = t) ∧
      (guess_type (sd ++ "/" ++ f) = none →
        mimeOrDefault (sd ++ "/" ++ f) = "binary/octet-stream") := by
  obtain ⟨f, hff, rfl⟩ := upload_to_s3_trace_mem sd b fs ok a ha
  refine ⟨f, hff, rfl, ?_, ?_⟩
  · intro t ht
    rw [mimeOrDefault, guess_type_of_recognized _ _ ht]
  · intro hn
    rw [mimeOrDefault, hn]

/-- C4 witness: a single upload of index.html, whose recognized
extension yields text/html. -/
theorem claim_C4_content_type_per_file_witness :
    ∃ f ∈ (["index.html"] : List String),
      mkUpload tmpDirPath (JVal.str "b") "index.html" = mkUpload tmpDirPath (JVal.str "b") f ∧
      (∀ t, types_map.lookup (posixSplitext (tmpDirPath ++ "/" ++ f)).2 = some t →
        mimeOrDefault (tmpDirPath ++ "/" ++ f) = t) ∧
      (guess_type (tmpDirPath ++ "/" ++ f) = none →
        mimeOrDefault (tmpDirPath ++ "/" ++ f) = "binary/octet-stream") :=
  claim_C4_content_type_per_file tmpDirPath (JVal.str "b") ["index.html"]
    (fun _ => true) (mkUpload tmpDirPath (JVal.str "b") "index.html")
    (by
      rw [show (upload_to_s3 tmpDirPath (JVal.str "b") ["index.html"]
        (fun _ => true)).1 = [mkUpload tmpDirPath (JVal.str "b") "index.html"]
        from rfl]
      exact List.mem_singleton.mpr rfl)

/-- C4 counterexample: a file with an unrecognized extension is uploaded
with content type binary/octet-stream, which differs from the
application/octet-stream fallback the claim states. -/
theorem claim_C4_counterexample :
    (upload_to_s3 tmpDirPath (JVal.str "my-site-bucket") ["data.qqq"]
      (fun _ => true)).1 =
      [Action.uploadFile defaultS3Client "/tmp/tmpdirxxxxxx/data.qqq"
        (JVal.str "my-site-bucket") "data.qqq" "binary/octet-stream"] ∧
    guess_type "/tmp/tmpdirxxxxxx/data.qqq" = none ∧
    "binary/octet-stream" ≠ "application/octet-stream" :=
  ⟨rfl, rfl, by decide⟩

/-- C5: whenever the UserParameters string of the trigger event is not
parseable, or its parsed value lacks the staticS3 destination field (in
the sense of the Python membership operator, including the case where
the test itself raises a type error), the invocation fails before any
download of the source artifact is attempted: the trace contains no
download action and the outcome is a propagated exception. -/
theorem claim_C5_fails_before_download (env : Env) (ev : Event)
    (h : json_loads ev.data.userParameters = none ∨
      (∀ j, json_loads ev.data.userParameters = some j →
        pyContains j "staticS3" ≠ Except.ok true)) :
    (lambda_handler env ev).1.countP isDownloadAct = 0 ∧
    exceptOk (lambda_handler env ev).2 = false := by
  have hgs : ∃ e, get_static_bucket ev.data = Except.error e := by
    rcases hj : json_loads ev.data.userParameters with _ | j
    · exact ⟨PyErr.exn "UserParameters could not be decoded as JSON",
        by simp [get_static_bucket, hj]⟩
    · rcases h with h | h
      · rw [hj] at h
        exact Option.noConfusion h
      · have hc := h j hj
        rcases hpc : pyContains j "staticS3" with e | bb
        · exact ⟨e, by simp [get_static_bucket, hj, hpc]⟩
        · cases bb
          · exact ⟨PyErr.exn "Your UserParameters JSON must include the static S3 bucket",
              by simp [get_static_bucket, hj, hpc]⟩
          · exact absurd hpc hc
  obtain ⟨e, hgse⟩ := hgs
  rcases harts : ev.data.inputArtifacts with _ | ⟨art, arest⟩
  · simp [lambda_handler, harts, exceptOk]
  · simp [lambda_handler, harts, hgse, exceptOk]

/-- C5 witness: a trigger event whose UserParameters string is not
decodable produces a run with no download action and a failing outcome. -/
theorem claim_C5_fails_before_download_witness :
    (lambda_handler ⟨true, true, [], fun _ => true⟩
        ⟨"job-1", ⟨⟨"AK", "SK", "ST"⟩, [⟨⟨"build-artifacts", "job-42.zip"⟩⟩],
          "notjson"⟩⟩).1.countP isDownloadAct = 0 ∧
    exceptOk (lambda_handler ⟨true, true, [], fun _ => true⟩
        ⟨"job-1", ⟨⟨"AK", "SK", "ST"⟩, [⟨⟨"build-artifacts", "job-42.zip"⟩⟩],
          "notjson"⟩⟩).2 = false :=
  claim_C5_fails_before_download ⟨true, true, [], fun _ => true⟩
    ⟨"job-1", ⟨⟨"AK", "SK", "ST"⟩, [⟨⟨"build-artifacts", "job-42.zip"⟩⟩],
      "notjson"⟩⟩ (Or.inl rfl)

/-- C6 (amended): the named temporary file holding the downloaded
archive is removed exactly as often as it is created, on every exit
path; but the temporary directory holding the extracted tree is never
removed on any path, successful or failing: it is left for process
exit. -/
theorem claim_C6_tempdir_never_removed (env : Env) (ev : Event) :
    (lambda_handler env ev).1.countP isRemoveDirAct = 0 ∧
    (lambda_handler env ev).1.countP isRemoveFileAct =
      (lambda_handler env ev).1.countP isCreateFileAct := by
  have h1 : ∀ c s bk k m,
      isRemoveDirAct (Action.uploadFile c s bk k m) = false := fun _ _ _ _ _ => rfl
  have h2 : ∀ c s bk k m,
      isRemoveFileAct (Action.uploadFile c s bk k m) = false := fun _ _ _ _ _ => rfl
  have h3 : ∀ c s bk k m,
      isCreateFileAct (Action.uploadFile c s bk k m) = false := fun _ _ _ _ _ => rfl
  rcases harts : ev.data.inputArtifacts with _ | ⟨art, arest⟩
  · simp [lambda_handler, harts]
  rcases hgs : get_static_bucket ev.data with e | statics3
  · simp [lambda_handler, harts, hgs]
  cases hdl : env.downloadOk with
  | false =>
    simp [lambda_handler, harts, hgs, hdl, isRemoveDirAct, isRemoveFileAct,
      isCreateFileAct]
  | true =>
  cases hzv : env.zipValid with
  | false =>
    simp [lambda_handler, harts, hgs, hdl, hzv, isRemoveDirAct, isRemoveFileAct,
      isCreateFileAct]
  | true =>
  rcases hex : extractallFiles env.zipEntries with e | files
  · simp [lambda_handler, harts, hgs, hdl, hzv, hex, isRemoveDirAct,
      isRemoveFileAct, isCreateFileAct]
  rcases hup : (upload_to_s3 tmpDirPath statics3 files env.uploadOk).2 with e | u
  · simp [lambda_handler, harts, hgs, hdl, hzv, hex, hup, isRemoveDirAct,
      isRemoveFileAct, isCreateFileAct, List.countP_append,
      upload_trace_countP _ _ _ _ isRemoveDirAct h1,
      upload_trace_countP _ _ _ _ isRemoveFileAct h2,
      upload_trace_countP _ _ _ _ isCreateFileAct h3]
  · simp [lambda_handler, harts, hgs, hdl, hzv, hex, hup, isRemoveDirAct,
      isRemoveFileAct, isCreateFileAct, List.countP_append,
      upload_trace_countP _ _ _ _ isRemoveDirAct h1,
      upload_trace_countP _ _ _ _ isRemoveFileAct h2,
      upload_trace_countP _ _ _ _ isCreateFileAct h3]

/-- C6 counterexample: a successful run creates the temporary extraction
directory and terminates normally without ever removing it, refuting
the claim that all temporary storage is released on every exit path. -/
theorem claim_C6_counterexample :
    exceptOk (lambda_handler ⟨true, true, [], fun _ => true⟩
        ⟨"job-1", ⟨⟨"AK", "SK", "ST"⟩, [⟨⟨"build-artifacts", "job-42.zip"⟩⟩],
          "\x7b\"staticS3\": \"my-site-bucket\"\x7d"⟩⟩).2 = true ∧
    (lambda_handler ⟨true, true, [], fun _ => true⟩
        ⟨"job-1", ⟨⟨"AK", "SK", "ST"⟩, [⟨⟨"build-artifacts", "job-42.zip"⟩⟩],
          "\x7b\"staticS3\": \"my-site-bucket\"\x7d"⟩⟩).1.countP isCreateDirAct = 1 ∧
    (lambda_handler ⟨true, true, [], fun _ => true⟩
        ⟨"job-1", ⟨⟨"AK", "SK", "ST"⟩, [⟨⟨"build-artifacts", "job-42.zip"⟩⟩],
          "\x7b\"staticS3\": \"my-site-bucket\"\x7d"⟩⟩).1.countP isRemoveDirAct = 0 :=
  ⟨rfl, rfl, rfl⟩

/-- C7 (amended): get_static_bucket raises the descriptive decode
error exactly when the UserParameters string is not valid JSON; and
when the decoded parameters form a JSON object, it raises the error
naming the missing staticS3 field exactly when the object lacks that
field, and otherwise returns the value of the field. Outside JSON
objects this characterization is not claimed: there the membership test
may raise a type error that does not name the field, as it does for the
decoded number 42. -/
theorem claim_C7_get_static_bucket_spec (jd : JobData) :
    (get_static_bucket jd =
        Except.error (PyErr.exn "UserParameters could not be decoded as JSON") ↔
      json_loads jd.userParameters = none) ∧
    (∀ fields, json_loads jd.userParameters = some (JVal.obj fields) →
      ((get_static_bucket jd =
          Except.error
            (PyErr.exn "Your UserParameters JSON must include the static S3 bucket") ↔
        fields.lookup "staticS3" = none) ∧
       (∀ v, fields.lookup "staticS3" = some v →
         get_static_bucket jd = Except.ok v))) := by
  constructor
  · constructor
    · intro h
      rcases hj : json_loads jd.userParameters with _ | j
      · rfl
      · exfalso
        simp only [get_static_bucket, hj] at h
        rcases j with _ | b | raw | s | items | fields
        · simp [pyContains] at h
        · simp [pyContains] at h
        · simp [pyContains] at h
        · rcases hsc : strContains s "staticS3" with _ | _
          · simp [pyContains, hsc] at h
          · simp [pyContains, hsc, pySubscript] at h
        · rcases hsc : items.any (fun x => jvalBeq x (JVal.str "staticS3")) with _ | _
          · simp [pyContains, hsc] at h
          · simp [pyContains, hsc, pySubscript] at h
        · rcases hl : fields.lookup "staticS3" with _ | v
          · simp [pyContains, hl] at h
          · simp [pyContains, hl, pySubscript] at h
    · intro h
      simp [get_static_bucket, h]
  · intro fields hf
    refine ⟨⟨?_, ?_⟩, ?_⟩
    · intro h
      rcases hl : fields.lookup "staticS3" with _ | v
      · rfl
      · exfalso
        simp [get_static_bucket, hf, pyContains, pySubscript, hl] at h
    · intro h
      simp [get_static_bucket, hf, pyContains, pySubscript, h]
    · intro v hv
      simp [get_static_bucket, hf, pyContains, pySubscript, hv]

/-- C7 witness: the three specified behaviors at concrete inputs: a
well-formed parameter object returns the bucket value, an empty object
raises the error naming the missing field, and a non-JSON string raises
the decode error. -/
theorem claim_C7_get_static_bucket_spec_witness :
    get_static_bucket ⟨⟨"AK", "SK", "ST"⟩, [], "\x7b\"staticS3\": \"bkt\"\x7d"⟩ =
      Except.ok (JVal.str "bkt") ∧
    get_static_bucket ⟨⟨"AK", "SK", "ST"⟩, [], "\x7b\x7d"⟩ =
      Except.error
        (PyErr.exn "Your UserParameters JSON must include the static S3 bucket") ∧
    get_static_bucket ⟨⟨"AK", "SK", "ST"⟩, [], "notjson"⟩ =
      Except.error (PyErr.exn "UserParameters could not be decoded as JSON") :=
  ⟨((claim_C7_get_static_bucket_spec
      ⟨⟨"AK", "SK", "ST"⟩, [], "\x7b\"staticS3\": \"bkt\"\x7d"⟩).2
      [("staticS3", JVal.str "bkt")] (by rfl)).2 (JVal.str "bkt") (by rfl),
   ((claim_C7_get_static_bucket_spec ⟨⟨"AK", "SK", "ST"⟩, [], "\x7b\x7d"⟩).2
      [] (by rfl)).1.mpr (by rfl),
   (claim_C7_get_static_bucket_spec
      ⟨⟨"AK", "SK", "ST"⟩, [], "notjson"⟩).1.mpr (by rfl)⟩

/-- C7 counterexample: for the UserParameters string 42 the decode
succeeds and the decoded parameters (the number 42) lack the staticS3
field, yet the raised error is a membership type error whose message
does not name the field, refuting the claimed exact characterization. -/
theorem claim_C7_counterexample :
    json_loads "42" = some (JVal.num "42") ∧
    get_static_bucket ⟨⟨"AK", "SK", "ST"⟩, [], "42"⟩ =
      Except.error (PyErr.typeError "argument of type \x27int\x27 is not iterable") ∧
    strContains "argument of type \x27int\x27 is not iterable" "staticS3" = false :=
  ⟨rfl, rfl, rfl⟩

theorem get_static_bucket_mk (c : Creds) (arts : List InputArtifact) (jd : JobData) :
    get_static_bucket ⟨c, arts, jd.userParameters⟩ = get_static_bucket jd := rfl

theorem setup_s3_client_mk (arts : List InputArtifact) (ups : String) (jd : JobData) :
    setup_s3_client ⟨jd.artifactCredentials, arts, ups⟩ = setup_s3_client jd := rfl

theorem lambda_handler_upload_client (env : Env) (ev : Event) :
    ∀ a ∈ (lambda_handler env ev).1, ∀ cl src bk k m,
      a = Action.uploadFile cl src bk k m → cl = defaultS3Client := by
  rcases harts : ev.data.inputArtifacts with _ | ⟨art, arest⟩
  · intro a ha
    simp [lambda_handler, harts] at ha
  rcases hgs : get_static_bucket ev.data with e | statics3
  · intro a ha
    simp [lambda_handler, harts, hgs] at ha
  cases hdl : env.downloadOk with
  | false =>
    intro a ha cl src bk k m heq
    subst heq
    simp [lambda_handler, harts, hgs, hdl] at ha
  | true =>
  cases hzv : env.zipValid with
  | false =>
    intro a ha cl src bk k m heq
    subst heq
    simp [lambda_handler, harts, hgs, hdl, hzv] at ha
  | true =>
  rcases hex : extractallFiles env.zipEntries with e | files
  · intro a ha cl src bk k m heq
    subst heq
    simp [lambda_handler, harts, hgs, hdl, hzv, hex] at ha
  rcases hup : (upload_to_s3 tmpDirPath statics3 files env.uploadOk).2 with e | u
  · intro a ha cl src bk k m heq
    subst heq
    simp [lambda_handler, harts, hgs, hdl, hzv, hex, hup] at ha
    obtain ⟨f, _, hmk⟩ := upload_to_s3_trace_mem _ _ _ _ _ ha
    simp [mkUpload] at hmk
    exact hmk.1
  · intro a ha cl src bk k m heq
    subst heq
    simp [lambda_handler, harts, hgs, hdl, hzv, hex, hup] at ha
    obtain ⟨f, _, hmk⟩ := upload_to_s3_trace_mem _ _ _ _ _ ha
    simp [mkUpload] at hmk
    exact hmk.1

theorem lambda_handler_uploads_creds_free (env : Env) (ev : Event) (c : Creds) :
    uploadActs (lambda_handler env
      ⟨ev.jobId, ⟨c, ev.data.inputArtifacts, ev.data.userParameters⟩⟩).1 =
    uploadActs (lambda_handler env ev).1 := by
  rcases harts : ev.data.inputArtifacts with _ | ⟨art, arest⟩
  · simp [lambda_handler, harts]
  rcases hgs : get_static_bucket ev.data with e | statics3
  · simp [lambda_handler, harts, hgs, get_static_bucket_mk]
  cases hdl : env.downloadOk with
  | false =>
    simp [lambda_handler, harts, hgs, hdl, get_static_bucket_mk, uploadActs,
      isUploadAct]
  | true =>
  cases hzv : env.zipValid with
  | false =>
    simp [lambda_handler, harts, hgs, hdl, hzv, get_static_bucket_mk, uploadActs,
      isUploadAct]
  | true =>
  rcases hex : extractallFiles env.zipEntries with e | files
  · simp [lambda_handler, harts, hgs, hdl, hzv, hex, get_static_bucket_mk,
      uploadActs, isUploadAct]
  rcases hup : (upload_to_s3 tmpDirPath statics3 files env.uploadOk).2 with e | u
  · simp [lambda_handler, harts, hgs, hdl, hzv, hex, hup, get_static_bucket_mk,
      uploadActs, isUploadAct]
  · simp [lambda_handler, harts, hgs, hdl, hzv, hex, hup, get_static_bucket_mk,
      uploadActs, isUploadAct]

/-- C8: uploads to the destination are authenticated with the ambient
default identity and never with the trigger-supplied source
credentials: every upload action of every run carries the default
client; two trigger events differing only in artifactCredentials
produce identical upload actions; and the scoped source client built by
setup_s3_client is never equal to the destination client, differing
already in its identity. -/
theorem claim_C8_ambient_identity_for_uploads (env : Env) (ev : Event) (c : Creds) :
    (∀ a ∈ (lambda_handler env ev).1, ∀ cl src bk k m,
      a = Action.uploadFile cl src bk k m → cl = defaultS3Client) ∧
    uploadActs (lambda_handler env
        ⟨ev.jobId, ⟨c, ev.data.inputArtifacts, ev.data.userParameters⟩⟩).1 =
      uploadActs (lambda_handler env ev).1 ∧
    setup_s3_client ev.data ≠ defaultS3Client ∧
    (setup_s3_client ev.data).identity ≠ defaultS3Client.identity :=
  ⟨lambda_handler_upload_client env ev,
   lambda_handler_uploads_creds_free env ev c,
   by simp [setup_s3_client, defaultS3Client],
   by simp [setup_s3_client, defaultS3Client]⟩

/-- C8 witness: on a concrete successful run, the single upload action
carries the default client, the upload actions are unchanged under a
credential change, and the scoped client differs from the destination
client. -/
theorem claim_C8_ambient_identity_for_uploads_witness :
    defaultS3Client = defaultS3Client ∧
    uploadActs (lambda_handler ⟨true, true, ["index.html"], fun _ => true⟩
        ⟨"job-1", ⟨⟨"AK2", "SK2", "ST2"⟩,
          [⟨⟨"build-artifacts", "job-42.zip"⟩⟩],
          "\x7b\"staticS3\": \"my-site-bucket\"\x7d"⟩⟩).1 =
      uploadActs (lambda_handler ⟨true, true, ["index.html"], fun _ => true⟩
        ⟨"job-1", ⟨⟨"AK", "SK", "ST"⟩,
          [⟨⟨"build-artifacts", "job-42.zip"⟩⟩],
          "\x7b\"staticS3\": \"my-site-bucket\"\x7d"⟩⟩).1 ∧
    setup_s3_client ⟨⟨"AK", "SK", "ST"⟩, [⟨⟨"build-artifacts", "job-42.zip"⟩⟩],
      "\x7b\"staticS3\": \"my-site-bucket\"\x7d"⟩ ≠ defaultS3Client :=
  ⟨(claim_C8_ambient_identity_for_uploads
      ⟨true, true, ["index.html"], fun _ => true⟩
      ⟨"job-1", ⟨⟨"AK", "SK", "ST"⟩, [⟨⟨"build-artifacts", "job-42.zip"⟩⟩],
        "\x7b\"staticS3\": \"my-site-bucket\"\x7d"⟩⟩
      ⟨"AK2", "SK2", "ST2"⟩).1
    (Action.uploadFile defaultS3Client "/tmp/tmpdirxxxxxx/index.html"
      (JVal.str "my-site-bucket") "index.html" "text/html")
    (by
      rw [show (lambda_handler ⟨true, true, ["index.html"], fun _ => true⟩
        ⟨"job-1", ⟨⟨"AK", "SK", "ST"⟩, [⟨⟨"build-artifacts", "job-42.zip"⟩⟩],
          "\x7b\"staticS3\": \"my-site-bucket\"\x7d"⟩⟩).1 =
        [Action.createTempDir tmpDirPath, Action.createTempFile tmpFilePath,
         Action.downloadFile (S3Client.mk (Identity.scoped ⟨"AK", "SK", "ST"⟩) "s3v4")
           "build-artifacts" "job-42.zip" tmpFilePath,
         Action.removeTempFile tmpFilePath,
         Action.uploadFile defaultS3Client "/tmp/tmpdirxxxxxx/index.html"
           (JVal.str "my-site-bucket") "index.html" "text/html",
         Action.putJobSuccess "job-1"] from rfl]
      exact List.mem_cons_of_mem _ (List.mem_cons_of_mem _ (List.mem_cons_of_mem _
        (List.mem_cons_of_mem _ (List.mem_cons_self _ _)))))
    defaultS3Client "/tmp/tmpdirxxxxxx/index.html" (JVal.str "my-site-bucket")
    "index.html" "text/html" rfl,
   (claim_C8_ambient_identity_for_uploads
      ⟨true, true, ["index.html"], fun _ => true⟩
      ⟨"job-1", ⟨⟨"AK", "SK", "ST"⟩, [⟨⟨"build-artifacts", "job-42.zip"⟩⟩],
        "\x7b\"staticS3\": \"my-site-bucket\"\x7d"⟩⟩
      ⟨"AK2", "SK2", "ST2"⟩).2.1,
   (claim_C8_ambient_identity_for_uploads
      ⟨true, true, ["index.html"], fun _ => true⟩
      ⟨"job-1", ⟨⟨"AK", "SK", "ST"⟩, [⟨⟨"build-artifacts", "job-42.zip"⟩⟩],
        "\x7b\"staticS3\": \"my-site-bucket\"\x7d"⟩⟩
      ⟨"AK2", "SK2", "ST2"⟩).2.2.1⟩

/-- C9: the publish step is not atomic on error. When the upload of the
file at walk-order index k fails (all earlier uploads succeeding), the
loop stops with a propagated exception; the trace holds exactly the
upload calls for the first k files, all already performed against the
destination, plus the failing k-th call, and contains no deletion of a
destination object: nothing is rolled back. -/
theorem claim_C9_no_rollback_on_partial_failure (sd : String) (b : JVal)
    (fs : List String) (ok : Nat → Bool) (k : Nat) (hk : k < fs.length)
    (hpre : ∀ i, i < k → ok i = true) (hfail : ok k = false) :
    (upload_to_s3 sd b fs ok).2 =
      Except.error (PyErr.clientError "upload failed") ∧
    (upload_to_s3 sd b fs ok).1 = (fs.take (k + 1)).map (mkUpload sd b) ∧
    (upload_to_s3 sd b fs ok).1.take k = (fs.take k).map (mkUpload sd b) ∧
    (upload_to_s3 sd b fs ok).1.countP isDeleteAct = 0 := by
  have h := upload_to_s3_failure sd b fs ok k hk hpre hfail
  refine ⟨by rw [h], by rw [h], ?_,
    upload_trace_countP _ _ _ _ isDeleteAct (fun _ _ _ _ _ => rfl)⟩
  rw [h]
  show ((fs.take (k + 1)).map (mkUpload sd b)).take k = (fs.take k).map (mkUpload sd b)
  rw [← List.map_take, List.take_take, Nat.min_eq_left (Nat.le_succ k)]

/-- C9 witness: of three files with the second upload failing, exactly
the first upload is performed and recorded before the failing call, and
nothing is deleted. -/
theorem claim_C9_no_rollback_on_partial_failure_witness :
    (upload_to_s3 tmpDirPath (JVal.str "my-site-bucket")
      ["a.txt", "b.txt", "c.txt"] (fun i => i == 0)).2 =
      Except.error (PyErr.clientError "upload failed") ∧
    (upload_to_s3 tmpDirPath (JVal.str "my-site-bucket")
      ["a.txt", "b.txt", "c.txt"] (fun i => i == 0)).1 =
      ((["a.txt", "b.txt", "c.txt"] : List String).take 2).map
        (mkUpload tmpDirPath (JVal.str "my-site-bucket")) ∧
    (upload_to_s3 tmpDirPath (JVal.str "my-site-bucket")
      ["a.txt", "b.txt", "c.txt"] (fun i => i == 0)).1.take 1 =
      ((["a.txt", "b.txt", "c.txt"] : List String).take 1).map
        (mkUpload tmpDirPath (JVal.str "my-site-bucket")) ∧
    (upload_to_s3 tmpDirPath (JVal.str "my-site-bucket")
      ["a.txt", "b.txt", "c.txt"] (fun i => i == 0)).1.countP isDeleteAct = 0 :=
  claim_C9_no_rollback_on_partial_failure tmpDirPath (JVal.str "my-site-bucket")
    ["a.txt", "b.txt", "c.txt"] (fun i => i == 0) 1 (by decide)
    (fun i hi => by
      have h0 : i = 0 := Nat.lt_one_iff.mp hi
      subst h0
      rfl)
    rfl

/-- C10: lambda_handler reads only the first element of the
inputArtifacts list: an event with an empty list fails immediately with
an index error, before any download; replacing the tail of the list
changes nothing about the run; and every download action of every run
reads the location of the first artifact. -/
theorem claim_C10_only_first_artifact (env : Env) (ev : Event) :
    (ev.data.inputArtifacts = [] →
      lambda_handler env ev =
        ([], Except.error (PyErr.indexError "list index out of range"))) ∧
    (∀ art rest rest2, ev.data.inputArtifacts = art :: rest →
      lambda_handler env
        ⟨ev.jobId, ⟨ev.data.artifactCredentials, art :: rest2,
          ev.data.userParameters⟩⟩ = lambda_handler env ev) ∧
    (∀ a ∈ (lambda_handler env ev).1, ∀ cl bn k d,
      a = Action.downloadFile cl bn k d →
      ∃ art rest, ev.data.inputArtifacts = art :: rest ∧
        bn = art.location.bucketName ∧ k = art.location.objectKey ∧
        cl = setup_s3_client ev.data) := by
  refine ⟨fun h => by simp [lambda_handler, h], ?_, ?_⟩
  · intro art rest rest2 harts
    simp only [lambda_handler, harts, get_static_bucket_mk, setup_s3_client_mk]
  · rcases harts : ev.data.inputArtifacts with _ | ⟨art, arest⟩
    · intro a ha
      simp [lambda_handler, harts] at ha
    rcases hgs : get_static_bucket ev.data with e | statics3
    · intro a ha
      simp [lambda_handler, harts, hgs] at ha
    cases hdl : env.downloadOk with
    | false =>
      intro a ha cl bn k d heq
      subst heq
      simp [lambda_handler, harts, hgs, hdl] at ha
      exact ⟨art, arest, rfl, ha.2.1, ha.2.2.1, ha.1⟩
    | true =>
    cases hzv : env.zipValid with
    | false =>
      intro a ha cl bn k d heq
      subst heq
      simp [lambda_handler, harts, hgs, hdl, hzv] at ha
      exact ⟨art, arest, rfl, ha.2.1, ha.2.2.1, ha.1⟩
    | true =>
    rcases hex : extractallFiles env.zipEntries with e | files
    · intro a ha cl bn k d heq
      subst heq
      simp [lambda_handler, harts, hgs, hdl, hzv, hex] at ha
      exact ⟨art, arest, rfl, ha.2.1, ha.2.2.1, ha.1⟩
    rcases hup : (upload_to_s3 tmpDirPath statics3 files env.uploadOk).2 with e | u
    · intro a ha cl bn k d heq
      subst heq
      simp [lambda_handler, harts, hgs, hdl, hzv, hex, hup] at ha
      rcases ha with ha | ha
      · exact ⟨art, arest, rfl, ha.2.1, ha.2.2.1, ha.1⟩
      · obtain ⟨f, _, hmk⟩ := upload_to_s3_trace_mem _ _ _ _ _ ha
        exact absurd hmk (by simp [mkUpload])
    · intro a ha cl bn k d heq
      subst heq
      simp [lambda_handler, harts, hgs, hdl, hzv, hex, hup] at ha
      rcases ha with ha | ha
      · exact ⟨art, arest, rfl, ha.2.1, ha.2.2.1, ha.1⟩
      · obtain ⟨f, _, hmk⟩ := upload_to_s3_trace_mem _ _ _ _ _ ha
        exact absurd hmk (by simp [mkUpload])

/-- C10 witness: an event with an empty artifact list fails with the
index error and an empty trace, and on an event with two artifacts the
run equals the run with the second artifact dropped. -/
theorem claim_C10_only_first_artifact_witness :
    lambda_handler ⟨true, true, [], fun _ => true⟩
      ⟨"job-1", ⟨⟨"AK", "SK", "ST"⟩, [],
        "\x7b\"staticS3\": \"my-site-bucket\"\x7d"⟩⟩ =
      ([], Except.error (PyErr.indexError "list index out of range")) ∧
    lambda_handler ⟨true, true, [], fun _ => true⟩
      ⟨"job-1", ⟨⟨"AK", "SK", "ST"⟩,
        [⟨⟨"build-artifacts", "job-42.zip"⟩⟩, ⟨⟨"other-bucket", "other.zip"⟩⟩],
        "\x7b\"staticS3\": \"my-site-bucket\"\x7d"⟩⟩ =
      lambda_handler ⟨true, true, [], fun _ => true⟩
        ⟨"job-1", ⟨⟨"AK", "SK", "ST"⟩, [⟨⟨"build-artifacts", "job-42.zip"⟩⟩],
          "\x7b\"staticS3\": \"my-site-bucket\"\x7d"⟩⟩ :=
  ⟨(claim_C10_only_first_artifact ⟨true, true, [], fun _ => true⟩
      ⟨"job-1", ⟨⟨"AK", "SK", "ST"⟩, [],
        "\x7b\"staticS3\": \"my-site-bucket\"\x7d"⟩⟩).1 rfl,
   (claim_C10_only_first_artifact ⟨true, true, [], fun _ => true⟩
      ⟨"job-1", ⟨⟨"AK", "SK", "ST"⟩, [⟨⟨"build-artifacts", "job-42.zip"⟩⟩],
        "\x7b\"staticS3\": \"my-site-bucket\"\x7d"⟩⟩).2.1
      ⟨⟨"build-artifacts", "job-42.zip"⟩⟩ []
      [⟨⟨"other-bucket", "other.zip"⟩⟩] rfl⟩

end CodePipelineToS3
